import Mathlib

/-!
Verification development for the exchange normalization layer of the
prediction-market data collector (Kalshi and Polymarket clients).

Modelling conventions:
* Python JSON-like values are modelled by `PyVal`; Python dicts are
  association lists with unique keys, `dict.get` is `PyVal.dget`.
* Python floats are modelled as exact rationals; the arithmetic the
  normalizers perform on them (the complementary inversion `1.0 - p`,
  comparisons for sorting) is modelled exactly.
* Fallible Python operations return `Except PyExc _`; an uncaught Python
  exception is an `Except.error`.
* Wall-clock and rate-limiter sleeping are timing-only effects and are not
  modelled; the local timezone of the host is an explicit parameter `tz`
  (seconds east of UTC) wherever `datetime.fromtimestamp` is modelled.
-/

-- Rational arithmetic must evaluate definitionally so that witnesses can
-- be checked on concrete payloads; the library marks these irreducible.
attribute [local semireducible] Rat.add Rat.sub Rat.mul

namespace ExchangeSpec

/-- Python exception kinds relevant to the normalization layer. -/
inductive PyExc where
  | typeError
  | valueError
  | osError
  | overflowError
  | attributeError
deriving DecidableEq, Repr

/-- Model of a Python JSON-like value (the shape of exchange payloads). -/
inductive PyVal where
  | none
  | bool (b : Bool)
  | int (n : ℤ)
  | float (q : ℚ)
  | str (s : String)
  | list (xs : List PyVal)
  | dict (entries : List (String × PyVal))

/-- Python truthiness of a value (`if v:`). -/
def PyVal.truthy : PyVal → Bool
  | .none => false
  | .bool b => b
  | .int n => n != 0
  | .float q => q != 0
  | .str s => s ≠ ""
  | .list xs => !xs.isEmpty
  | .dict d => !d.isEmpty

/-- Lookup in a modelled Python dict (`d[k]` when the key is known present,
`d.get(k)` otherwise); returns the first binding for the key. -/
def dlookup (entries : List (String × PyVal)) (k : String) : Option PyVal :=
  match entries with
  | [] => Option.none
  | (k', v) :: rest => if k' = k then some v else dlookup rest k

/-- Python `d.get(k)` with default `None`. -/
def PyVal.dget (v : PyVal) (k : String) : PyVal :=
  match v with
  | .dict entries => (dlookup entries k).getD .none
  | _ => .none

/-- Python `d.get(k, default)`. -/
def PyVal.dgetD (v : PyVal) (k : String) (dflt : PyVal) : PyVal :=
  match v with
  | .dict entries => (dlookup entries k).getD dflt
  | _ => dflt

/-- Python `k in d` membership test for dict keys. -/
def PyVal.hasKey (v : PyVal) (k : String) : Bool :=
  match v with
  | .dict entries => (dlookup entries k).isSome
  | _ => false

/-- Python `a or b`: the first operand when it is truthy, the second
otherwise. -/
def pyOr (a b : PyVal) : PyVal :=
  if a.truthy then a else b

/-- Model of Python `str()` on the values that reach it in this code base
(market identifiers: strings, numbers, `None`).  The rendering of floats and
containers is approximated; no claim evaluates `str()` on those. -/
def pyStr : PyVal → String
  | .none => "None"
  | .bool b => if b then "True" else "False"
  | .int n => toString n
  | .float q => toString q
  | .str s => s
  | .list _ => "<list>"
  | .dict _ => "<dict>"

/-- Parse an optional leading sign from a character list. -/
def parseSign : List Char → (Bool × List Char)
  | '-' :: rest => (true, rest)
  | '+' :: rest => (false, rest)
  | cs => (false, cs)

/-- Parse a run of decimal digits, returning the accumulated value and the
count of digits consumed. -/
def parseDigits : List Char → ℕ → ℕ → (ℕ × ℕ × List Char)
  | c :: rest, acc, cnt =>
    if '0' ≤ c ∧ c ≤ '9' then parseDigits rest (acc * 10 + (c.toNat - 48)) (cnt + 1)
    else (acc, cnt, c :: rest)
  | [], acc, cnt => (acc, cnt, [])

/-- Parse a decimal literal (sign, integer part, optional fraction) to an
exact rational.  Models the subset of Python `float(str)` syntax the
payloads use; scientific notation, infinities and surrounding whitespace
are not modelled and fail like any other unparsable string. -/
def parseDecimal (s : String) : Option ℚ :=
  let (neg, cs) := parseSign s.data
  let (ip, ic, rest) := parseDigits cs 0 0
  match rest with
  | [] =>
    if ic = 0 then Option.none
    else some (if neg then -(ip : ℚ) else (ip : ℚ))
  | '.' :: frac =>
    let (fp, fc, rest') := parseDigits frac 0 0
    if rest' = [] ∧ (ic ≠ 0 ∨ fc ≠ 0) then
      let mag : ℚ := (ip : ℚ) + (fp : ℚ) / ((10 : ℚ) ^ fc)
      some (if neg then -mag else mag)
    else Option.none
  | _ => Option.none

/-- Model of Python `float(v)`: numbers coerce, numeric strings parse,
everything else raises (`TypeError` for non-string non-numbers,
`ValueError` for unparsable strings). -/
def pyFloat : PyVal → Except PyExc ℚ
  | .bool b => .ok (if b then 1 else 0)
  | .int n => .ok (n : ℚ)
  | .float q => .ok q
  | .str s =>
    match parseDecimal s with
    | some q => .ok q
    | Option.none => .error .valueError
  | _ => .error .typeError

/-! ### Rate limiter (src/exchange/utils/rate_limiter.py)

Only the delay-adaptation state is modelled; `wait_if_needed` and
`record_request` touch wall-clock state only and do not affect the delay
value. -/

/-- Constructor parameters of `RateLimiter` (defaults 0.1, 60.0, 2.0). -/
structure RLParams where
  min_delay : ℚ
  max_delay : ℚ
  backoff_factor : ℚ
deriving DecidableEq, Repr

/-- Initial `current_delay` of a freshly constructed `RateLimiter`. -/
def rlInit (p : RLParams) : ℚ := p.min_delay

/-- Model of `RateLimiter.handle_rate_limit_error`:
`current_delay = min(current_delay * backoff_factor, max_delay)`. -/
def handle_rate_limit_error (p : RLParams) (current_delay : ℚ) : ℚ :=
  min (current_delay * p.backoff_factor) p.max_delay

/-- Model of `RateLimiter.reset_delay`: when `current_delay > min_delay`,
`current_delay = max(current_delay / backoff_factor, min_delay)`; otherwise
unchanged. -/
def reset_delay (p : RLParams) (current_delay : ℚ) : ℚ :=
  if current_delay > p.min_delay then
    max (current_delay / p.backoff_factor) p.min_delay
  else current_delay

/-- Delay after `n` consecutive `handle_rate_limit_error` calls on a fresh
limiter. -/
def delayAfterHandles (p : RLParams) (n : ℕ) : ℚ :=
  (handle_rate_limit_error p)^[n] (rlInit p)

/-! ### Model of the Python datetime operations the normalizers use

The clients call `datetime.fromisoformat` (after replacing a literal Z with
+00:00), `datetime.fromtimestamp` (which renders in the local timezone,
passed here explicitly as `tz`, seconds east of UTC) and
`strftime` with the fixed formats `%Y-%m-%d` and `%H:%M:%S`. -/

/-- Model of a `datetime.datetime` value: civil components plus an optional
fixed UTC offset in seconds (`Option.none` for a naive datetime). -/
structure PyDateTime where
  year : ℤ
  month : ℤ
  day : ℤ
  hour : ℤ
  minute : ℤ
  second : ℤ
  tzOffset : Option ℤ
deriving DecidableEq, Repr

/-- Gregorian civil date from a count of days since 1970-01-01 (the
standard era-based conversion used by civil-time libraries). -/
def civilFromDays (z0 : ℤ) : ℤ × ℤ × ℤ :=
  let z := z0 + 719468
  let era := Int.fdiv z 146097
  let doe := z - era * 146097
  let yoe := (doe - doe / 1460 + doe / 36524 - doe / 146096) / 365
  let y := yoe + era * 400
  let doy := doe - (365 * yoe + yoe / 4 - yoe / 100)
  let mp := (5 * doy + 2) / 153
  let d := doy - (153 * mp + 2) / 5 + 1
  let m := mp + (if mp < 10 then 3 else -9)
  (y + (if m ≤ 2 then 1 else 0), m, d)

/-- Civil datetime (naive) from an epoch-second count already shifted into
the target timezone. -/
def civilOfEpoch (ts : ℤ) : PyDateTime :=
  let days := Int.fdiv ts 86400
  let sod := ts - 86400 * days
  let c := civilFromDays days
  ⟨c.1, c.2.1, c.2.2, sod / 3600, (sod % 3600) / 60, sod % 60, Option.none⟩

/-- Model of `datetime.fromtimestamp(t)` with local timezone offset `tz`
(seconds east of UTC).  Timestamps beyond the platform time_t range raise
`OverflowError` (which the normalizers do not catch); timestamps whose year
falls outside the datetime range raise `ValueError` (which they do catch).
Fractional seconds are floored, as `%H:%M:%S` formatting drops
microseconds. -/
def pyFromtimestamp (tz : ℤ) (t : ℚ) : Except PyExc PyDateTime :=
  let ts : ℤ := ⌊t⌋
  if ts.natAbs ≥ 2 ^ 63 then .error .overflowError
  else
    let dt := civilOfEpoch (ts + tz)
    if 1 ≤ dt.year ∧ dt.year ≤ 9999 then .ok dt else .error .valueError

/-- Whether a year is a Gregorian leap year. -/
def isLeap (y : ℤ) : Bool :=
  y % 4 = 0 ∧ (y % 100 ≠ 0 ∨ y % 400 = 0)

/-- Number of days in a month of a given year. -/
def daysInMonth (y m : ℤ) : ℤ :=
  if m = 2 then (if isLeap y then 29 else 28)
  else if m = 4 ∨ m = 6 ∨ m = 9 ∨ m = 11 then 30
  else 31

/-- Parse one decimal digit character. -/
def digitVal (c : Char) : Option ℤ :=
  if '0' ≤ c ∧ c ≤ '9' then some ((c.toNat : ℤ) - 48) else Option.none

/-- Parse two decimal digit characters as a number. -/
def twoDigits (a b : Char) : Option ℤ := do
  let x ← digitVal a
  let y ← digitVal b
  pure (x * 10 + y)

/-- Parse four decimal digit characters as a number. -/
def fourDigits (a b c d : Char) : Option ℤ := do
  let x ← twoDigits a b
  let y ← twoDigits c d
  pure (x * 100 + y)

/-- Parse the optional time-of-day-plus-offset tail of an ISO-8601 string
(everything after `YYYY-MM-DD`). -/
def parseTimeTail : List Char → Option (ℤ × ℤ × ℤ × Option ℤ)
  | [] => some (0, 0, 0, Option.none)
  | 'T' :: h1 :: h2 :: ':' :: m1 :: m2 :: ':' :: s1 :: s2 :: tail => do
    let h ← twoDigits h1 h2
    let mi ← twoDigits m1 m2
    let s ← twoDigits s1 s2
    if h ≤ 23 ∧ mi ≤ 59 ∧ s ≤ 59 then
      match tail with
      | [] => some (h, mi, s, Option.none)
      | '+' :: o1 :: o2 :: ':' :: o3 :: o4 :: [] => do
        let oh ← twoDigits o1 o2
        let om ← twoDigits o3 o4
        if oh ≤ 23 ∧ om ≤ 59 then some (h, mi, s, some (oh * 3600 + om * 60))
        else Option.none
      | '-' :: o1 :: o2 :: ':' :: o3 :: o4 :: [] => do
        let oh ← twoDigits o1 o2
        let om ← twoDigits o3 o4
        if oh ≤ 23 ∧ om ≤ 59 then some (h, mi, s, some (-(oh * 3600 + om * 60)))
        else Option.none
      | _ => Option.none
    else Option.none
  | _ => Option.none

/-- Model of `datetime.fromisoformat` on the `YYYY-MM-DD[THH:MM:SS[+HH:MM]]`
shapes the exchange payloads use (the trailing Z has already been replaced
with +00:00 by the caller).  Other extensions of the ISO grammar are not
modelled and fail; any parse failure is a `ValueError`. -/
def pyFromisoformat (s : String) : Except PyExc PyDateTime :=
  match s.data with
  | y1 :: y2 :: y3 :: y4 :: '-' :: m1 :: m2 :: '-' :: d1 :: d2 :: tail =>
    match fourDigits y1 y2 y3 y4, twoDigits m1 m2, twoDigits d1 d2, parseTimeTail tail with
    | some y, some mo, some d, some (h, mi, sec, off) =>
      if 1 ≤ y ∧ 1 ≤ mo ∧ mo ≤ 12 ∧ 1 ≤ d ∧ d ≤ daysInMonth y mo then
        .ok ⟨y, mo, d, h, mi, sec, off⟩
      else .error .valueError
    | _, _, _, _ => .error .valueError
  | _ => .error .valueError

/-- Model of Python `s.replace(Z, +00:00)` on the timestamp string (every
occurrence of the character Z is replaced). -/
def pyReplaceZ (s : String) : String :=
  ⟨s.data.foldr (fun c acc =>
    if c = 'Z' then '+' :: '0' :: '0' :: ':' :: '0' :: '0' :: acc
    else c :: acc) []⟩

/-- Zero-padded two-digit rendering (`%m`, `%d`, `%H`, `%M`, `%S`). -/
def pad2 (n : ℤ) : String :=
  (if n < 10 then "0" else "") ++ toString n

/-- Zero-padded four-digit rendering (`%Y`). -/
def pad4 (n : ℤ) : String :=
  (if n < 10 then "000" else if n < 100 then "00" else if n < 1000 then "0" else "")
    ++ toString n

/-- Model of `dt.strftime(%Y-%m-%d)`. -/
def fmtDate (dt : PyDateTime) : String :=
  pad4 dt.year ++ "-" ++ pad2 dt.month ++ "-" ++ pad2 dt.day

/-- Model of `dt.strftime(%H:%M:%S)`. -/
def fmtTime (dt : PyDateTime) : String :=
  pad2 dt.hour ++ ":" ++ pad2 dt.minute ++ ":" ++ pad2 dt.second

/-- Whether a Python exception kind is caught by the normalizers
`except (ValueError, TypeError, OSError)` clauses. -/
def caughtByTsHandler (e : PyExc) : Bool :=
  e = .valueError ∨ e = .typeError ∨ e = .osError

/-! ### Canonical data model (src/exchange/models.py)

The dataclasses perform no validation, so fields that the normalizers fill
from raw payload values without coercion are modelled as `PyVal`. -/

/-- Model of the `MarketMetadata` dataclass. -/
structure MarketMetadata where
  resolve_date : Option String
  resolve_time : Option String
  category : PyVal
  subcategory : PyVal
  tags : PyVal
  description : PyVal
  image_url : PyVal
  liquidity : PyVal
  volume : PyVal
  extra : PyVal

/-- Model of the `Market` dataclass. -/
structure Market where
  market_id : String
  name : PyVal
  rules : PyVal
  metadata : MarketMetadata
  exchange : String
  extra : PyVal

/-- Model of the `OrderBookEntry` dataclass (price and quantity are floats
in the source, modelled as exact rationals). -/
structure OrderBookEntry where
  price : ℚ
  quantity : ℚ
  metadata : PyVal

/-- Model of the `OrderBook` dataclass. -/
structure OrderBook where
  market_id : String
  bids : List OrderBookEntry
  asks : List OrderBookEntry
  timestamp : Option PyDateTime
  metadata : PyVal

/-! ### Further Python-semantics helpers used by the normalizers -/

/-- Whether a value is a Python dict. -/
def PyVal.isDict : PyVal → Bool
  | .dict _ => true
  | _ => false

/-- Entry list of a dict value (empty for non-dicts; used only after an
`isDict` test). -/
def PyVal.entries : PyVal → List (String × PyVal)
  | .dict d => d
  | _ => []

/-- Python `v.get(k, dflt)` as a method call: raises `AttributeError` when
the receiver is not a dict. -/
def pyGet (v : PyVal) (k : String) (dflt : PyVal) : Except PyExc PyVal :=
  match v with
  | .dict d => .ok ((dlookup d k).getD dflt)
  | _ => .error .attributeError

/-- Whether a string contains another as a substring (Python `k in s`). -/
def strContains (s k : String) : Bool :=
  k = "" ∨ (s.splitOn k).length > 1

/-- Python `k in v` for a string key: key membership on dicts, elementwise
equality on lists, substring test on strings, `TypeError` otherwise. -/
def pyContains (k : String) (v : PyVal) : Except PyExc Bool :=
  match v with
  | .dict d => .ok (dlookup d k).isSome
  | .list xs => .ok (xs.any fun e =>
      match e with
      | .str s => s = k
      | _ => false)
  | .str s => .ok (strContains s k)
  | _ => .error .typeError

/-- Python `v[k]` subscripting with a string key (always guarded by a
containment test in this code base, so the dict-key-present case never
fails; non-dict receivers raise `TypeError`). -/
def pySubscript (v : PyVal) (k : String) : Except PyExc PyVal :=
  match v with
  | .dict d => .ok ((dlookup d k).getD .none)
  | _ => .error .typeError

/-- Sequential effectful map over `Except`, modelling a Python for-loop
that appends one result per element and lets the first exception
propagate. -/
def mapExcept {ε α β : Type} (f : α → Except ε β) : List α → Except ε (List β)
  | [] => .ok []
  | x :: xs => do
    let y ← f x
    let ys ← mapExcept f xs
    pure (y :: ys)

/-- Python iteration `for x in v` collected to a list: lists iterate their
elements, strings their one-character substrings, dicts their keys; other
values raise `TypeError`. -/
def pyIter : PyVal → Except PyExc (List PyVal)
  | .list xs => .ok xs
  | .str s => .ok (s.data.map fun c => .str ⟨[c]⟩)
  | .dict d => .ok (d.map fun kv => .str kv.1)
  | _ => .error .typeError

/-- Python `d2 = dict(a); d2.update(b)` merge (also `{**a, **b}`): keys of
`a` in order with values overridden by `b`, then keys only in `b`. -/
def dictMerge (a b : List (String × PyVal)) : List (String × PyVal) :=
  a.map (fun kv => (kv.1, ((dlookup b kv.1).getD kv.2)))
    ++ b.filter (fun kv => (dlookup a kv.1).isNone)

/-! ### Resolution-timestamp extraction (shared shape of the two
`_normalize_market` implementations) -/

/-- Body of the timestamp try-block shared by both clients: an ISO string
is parsed after Z-replacement, a number goes through `fromtimestamp` (a
Python bool is an int), any other type leaves both components null. -/
def tsTryBody (tz : ℤ) (v : PyVal) : Except PyExc (Option String × Option String) :=
  match v with
  | .str s => do
    let dt ← pyFromisoformat (pyReplaceZ s)
    pure (some (fmtDate dt), some (fmtTime dt))
  | .int n => do
    let dt ← pyFromtimestamp tz (n : ℚ)
    pure (some (fmtDate dt), some (fmtTime dt))
  | .float q => do
    let dt ← pyFromtimestamp tz q
    pure (some (fmtDate dt), some (fmtTime dt))
  | .bool b => do
    let dt ← pyFromtimestamp tz (if b then 1 else 0)
    pure (some (fmtDate dt), some (fmtTime dt))
  | _ => .ok (Option.none, Option.none)

namespace Kalshi

/-- Model of the expiration-time block of `KalshiClient._normalize_market`
(lines 407-422): a falsy value is skipped, parse failures caught by
`except (ValueError, TypeError, OSError)` degrade to null components. -/
def parseExpiration (tz : ℤ) (v : PyVal) : Except PyExc (Option String × Option String) :=
  if v.truthy then
    match tsTryBody tz v with
    | .ok r => .ok r
    | .error e => if caughtByTsHandler e then .ok (Option.none, Option.none) else .error e
  else .ok (Option.none, Option.none)

/-- Model of `KalshiClient._normalize_market`.  The receiver of the `.get`
calls must be a dict; every canonical field is an or-chain over candidate
keys exactly as in the source. -/
def normalize_market (tz : ℤ) (md : PyVal) : Except PyExc Market :=
  if md.isDict then do
    let market_id := pyOr (md.dget "ticker") (pyOr (md.dget "event_ticker")
      (pyOr (md.dget "market_id") (pyOr (md.dget "id")
        (.str (pyStr (md.dgetD "event_id" (.str "")))))))
    let name := pyOr (md.dget "title") (pyOr (md.dget "name")
      (pyOr (md.dget "event_title") (pyOr (md.dget "question") (.str ""))))
    let rules := pyOr (md.dget "rules") (pyOr (md.dget "subtitle")
      (pyOr (md.dget "description") (.str "")))
    let rd ← parseExpiration tz
      (pyOr (md.dget "expected_expiration_time") (md.dget "expiration_time"))
    let metadata : MarketMetadata :=
      { resolve_date := rd.1
        resolve_time := rd.2
        category := pyOr (md.dget "category") (md.dget "series_ticker")
        subcategory := md.dget "subcategory"
        tags := pyOr (md.dget "tags") (md.dget "keywords")
        description := pyOr (md.dget "description") (md.dget "subtitle")
        image_url := pyOr (md.dget "image_url") (md.dget "image")
        liquidity := md.dget "liquidity"
        volume := pyOr (md.dget "volume") (md.dget "total_volume")
        extra := .dict
          [("status", md.dget "status"), ("yes_bid", md.dget "yes_bid"),
           ("yes_ask", md.dget "yes_ask"), ("no_bid", md.dget "no_bid"),
           ("no_ask", md.dget "no_ask"), ("last_price", md.dget "last_price"),
           ("previous_price", md.dget "previous_price"),
           ("event_ticker", md.dget "event_ticker"),
           ("series_ticker", md.dget "series_ticker")] }
    pure { market_id := pyStr market_id, name := name, rules := rules,
           metadata := metadata, exchange := "kalshi", extra := md }
  else .error .attributeError

end Kalshi

namespace Polymarket

/-- Model of the resolution-date block of
`PolymarketClient._normalize_market` (lines 469-493): like the Kalshi one,
except that a caught parse failure preserves `str(resolution_date)` as the
date component. -/
def parseResolution (tz : ℤ) (v : PyVal) : Except PyExc (Option String × Option String) :=
  if v.truthy then
    match tsTryBody tz v with
    | .ok r => .ok r
    | .error e => if caughtByTsHandler e then .ok (some (pyStr v), Option.none) else .error e
  else .ok (Option.none, Option.none)

/-- Model of `PolymarketClient._normalize_market`.  When truthy event data
is supplied, the merged view keeps market fields and fills only missing
keys from the event (the source comment claims the opposite precedence,
but the dict-splat expression keeps market values). -/
def normalize_market (tz : ℤ) (market_data : PyVal) (event_data : Option PyVal) :
    Except PyExc Market :=
  if market_data.isDict then do
    let merged ←
      match event_data with
      | some ev =>
        if ev.truthy then
          if ev.isDict then
            pure (PyVal.dict (dictMerge market_data.entries
              (ev.entries.filter fun kv => (dlookup market_data.entries kv.1).isNone)))
          else (.error .attributeError : Except PyExc PyVal)
        else pure market_data
      | Option.none => pure market_data
    let md := market_data
    let market_id := pyOr (merged.dget "slug") (pyOr (md.dget "slug")
      (pyOr (merged.dget "condition_id") (pyOr (md.dget "conditionId")
      (pyOr (merged.dget "conditionId") (pyOr (md.dget "token_id")
      (pyOr (merged.dget "id") (pyOr (md.dget "id")
      (pyOr (merged.dget "market_id") (.str "")))))))))
    let name := pyOr (merged.dget "question") (pyOr (md.dget "question")
      (pyOr (merged.dget "title") (pyOr (md.dget "title")
      (pyOr (merged.dget "name") (pyOr (md.dget "name")
      (pyOr (merged.dget "market_title") (.str "")))))))
    let rules := pyOr (merged.dget "description") (pyOr (md.dget "description")
      (pyOr (merged.dget "rules") (pyOr (md.dget "rules")
      (pyOr (merged.dget "resolutionRules") (pyOr (md.dget "resolution_rules")
      (pyOr (merged.dget "subtitle") (.str "")))))))
    let resolution_date := pyOr (merged.dget "resolution_date")
      (pyOr (merged.dget "endDate") (pyOr (merged.dget "end_date")
      (pyOr (md.dget "endDate") (md.dget "end_date"))))
    let rd ← parseResolution tz resolution_date
    let metadata : MarketMetadata :=
      { resolve_date := rd.1
        resolve_time := rd.2
        category := pyOr (merged.dget "category") (pyOr (merged.dget "groupItemTitle")
          (pyOr (merged.dget "group_item_title") (md.dget "category")))
        subcategory := pyOr (merged.dget "subcategory") (md.dget "subcategory")
        tags := pyOr (merged.dget "tags") (md.dget "tags")
        description := pyOr (merged.dget "description")
          (pyOr (md.dget "description") (merged.dget "subtitle"))
        image_url := pyOr (merged.dget "imageUrl") (pyOr (merged.dget "image_url")
          (pyOr (md.dget "imageUrl") (md.dget "image")))
        liquidity := pyOr (merged.dget "liquidity")
          (pyOr (md.dget "liquidity") (merged.dget "liquidity_usd"))
        volume := pyOr (merged.dget "volume") (pyOr (md.dget "volume")
          (pyOr (merged.dget "volume_usd") (md.dget "total_volume")))
        extra := .dict
          [("outcomes", pyOr (merged.dget "outcomes") (md.dget "outcomes")),
           ("active", pyOr (merged.dget "active") (md.dget "active")),
           ("closed", pyOr (merged.dget "closed") (md.dget "closed")),
           ("new", pyOr (merged.dget "new") (md.dget "new")),
           ("end_date_iso", pyOr (merged.dget "end_date_iso") (md.dget "end_date_iso")),
           ("start_date_iso", pyOr (merged.dget "start_date_iso") (md.dget "start_date_iso")),
           ("clobTokenIds", pyOr (merged.dget "clobTokenIds")
             (pyOr (md.dget "clob_token_ids") (md.dget "clobTokenIds"))),
           ("conditionId", pyOr (merged.dget "conditionId")
             (pyOr (merged.dget "condition_id") (md.dget "conditionId"))),
           ("token_id", pyOr (md.dget "token_id") (merged.dget "token_id"))] }
    pure { market_id := pyStr market_id, name := name, rules := rules,
           metadata := metadata, exchange := "polymarket",
           extra := .dict (dictMerge merged.entries md.entries) }
  else .error .attributeError

end Polymarket

/-! ### Order-book normalization

Python `list.sort` is a stable sort; its result on a key comparison is the
unique stable ordering, so it is modelled by `List.insertionSort` (also
stable) with the corresponding total preorder: descending by price for
bids (`reverse=True`), ascending by price for asks. -/

/-- Bid ordering: descending by price. -/
def bidRel (a b : OrderBookEntry) : Prop := b.price ≤ a.price

/-- Ask ordering: ascending by price. -/
def askRel (a b : OrderBookEntry) : Prop := a.price ≤ b.price

instance : DecidableRel bidRel := fun a b => inferInstanceAs (Decidable (b.price ≤ a.price))

instance : DecidableRel askRel := fun a b => inferInstanceAs (Decidable (a.price ≤ b.price))

instance : IsTotal OrderBookEntry bidRel := ⟨fun a b => le_total b.price a.price⟩

instance : IsTotal OrderBookEntry askRel := ⟨fun a b => le_total a.price b.price⟩

instance : IsTrans OrderBookEntry bidRel := ⟨fun _ _ _ h h' => le_trans h' h⟩

instance : IsTrans OrderBookEntry askRel := ⟨fun _ _ _ h h' => le_trans h h'⟩

/-- Shared shape of the order-book timestamp block: when the key is present
the value is parsed inside a try-block whose caught failures leave the
timestamp null. -/
def obTimestamp (tz : ℤ) (data : PyVal) : Except PyExc (Option PyDateTime) := do
  let present ← pyContains "timestamp" data
  if present then
    let body : Except PyExc (Option PyDateTime) := do
      let ts ← pySubscript data "timestamp"
      match ts with
      | .str s => do
        let dt ← pyFromisoformat (pyReplaceZ s)
        pure (some dt)
      | .int n => do
        let dt ← pyFromtimestamp tz (n : ℚ)
        pure (some dt)
      | .float q => do
        let dt ← pyFromtimestamp tz q
        pure (some dt)
      | .bool b => do
        let dt ← pyFromtimestamp tz (if b then 1 else 0)
        pure (some dt)
      | _ => pure Option.none
    match body with
    | .ok r => pure r
    | .error e => if caughtByTsHandler e then pure Option.none else .error e
  else pure Option.none

namespace Kalshi

/-- Level extraction on the yes/no sides of a Kalshi book:
`float(level.get(price, level.get(fallbackKey, 0)))` and
`float(level.get(quantity, level.get(size, 0)))`, with the price mapped
through the complementary inversion `1.0 - p` on the no side. -/
def yesNoEntry (fallbackKey : String) (invert : Bool) (L : PyVal) :
    Except PyExc OrderBookEntry :=
  match L with
  | .dict _ => do
    let p ← pyFloat (L.dgetD "price" (L.dgetD fallbackKey (.int 0)))
    let q ← pyFloat (L.dgetD "quantity" (L.dgetD "size" (.int 0)))
    pure ⟨if invert then 1 - p else p, q, L⟩
  | _ => .error .attributeError

/-- Level extraction in the plain bids/asks branch of a Kalshi book:
`float(level.get(price, 0))`. -/
def simpleEntry (L : PyVal) : Except PyExc OrderBookEntry :=
  match L with
  | .dict _ => do
    let p ← pyFloat (L.dgetD "price" (.int 0))
    let q ← pyFloat (L.dgetD "quantity" (L.dgetD "size" (.int 0)))
    pure ⟨p, q, L⟩
  | _ => .error .attributeError

/-- Side list of a yes/no sub-book: `side.get(key, []) if isinstance(side,
dict) else []`, iterated. -/
def sideList (side : PyVal) (key : String) : Except PyExc (List PyVal) :=
  if side.isDict then pyIter (side.dgetD key (.list [])) else .ok []

/-- Unwrapping of the `orderbook` envelope at the top of
`KalshiClient._normalize_orderbook`. -/
def obData (orderbook_data : PyVal) : PyVal :=
  if orderbook_data.hasKey "orderbook" then orderbook_data.dget "orderbook"
  else orderbook_data

/-- Branch of `KalshiClient._normalize_orderbook` taken when the book has
both `yes` and `no` keys: yes-bids become bids, yes-asks become asks,
no-bids become asks and no-asks become bids, the no side through the
complementary inversion.  The bid list is yes-bids then inverted no-asks,
the ask list yes-asks then inverted no-bids (both pre-sort). -/
def yesNoSides (data : PyVal) :
    Except PyExc (List OrderBookEntry × List OrderBookEntry) := do
  let yes_data := pyOr (← pyGet data "yes" .none) (.dict [])
  let no_data := pyOr (← pyGet data "no" .none) (.dict [])
  let yes_bids ← sideList yes_data "bids"
  let yes_asks ← sideList yes_data "asks"
  let no_bids ← sideList no_data "bids"
  let no_asks ← sideList no_data "asks"
  let yb ← mapExcept (yesNoEntry "yes_price" false) yes_bids
  let ya ← mapExcept (yesNoEntry "yes_price" false) yes_asks
  let nb ← mapExcept (yesNoEntry "no_price" true) no_bids
  let na ← mapExcept (yesNoEntry "no_price" true) no_asks
  pure (yb ++ na, ya ++ nb)

/-- Branch of `KalshiClient._normalize_orderbook` for a plain bids/asks
book. -/
def plainSides (data : PyVal) :
    Except PyExc (List OrderBookEntry × List OrderBookEntry) := do
  let raw_bids ← pyIter (← pyGet data "bids" (.list []))
  let raw_asks ← pyIter (← pyGet data "asks" (.list []))
  let bs ← mapExcept simpleEntry raw_bids
  let as_ ← mapExcept simpleEntry raw_asks
  pure (bs, as_)

/-- Model of `KalshiClient._normalize_orderbook`.  The payload is unwrapped
from an `orderbook` envelope when present; a book with both `yes` and `no`
keys goes through complementary inversion; otherwise plain `bids`/`asks`
arrays are read; both sides are then stably sorted. -/
def normalize_orderbook (tz : ℤ) (market_id : String) (orderbook_data : PyVal) :
    Except PyExc OrderBook := do
  let data := obData orderbook_data
  let hasYes ← pyContains "yes" data
  let hasNo ← pyContains "no" data
  let sides ← if hasYes ∧ hasNo then yesNoSides data else plainSides data
  let timestamp ← obTimestamp tz data
  pure { market_id := market_id
         bids := List.insertionSort bidRel sides.1
         asks := List.insertionSort askRel sides.2
         timestamp := timestamp
         metadata := orderbook_data }

end Kalshi

namespace Polymarket

/-- Level extraction for a Polymarket book:
`float(level.get(price, level.get(px, 0)))`,
`float(level.get(size, level.get(quantity, level.get(qty, 0))))`, with the
entry metadata retaining maker/timestamp/order id and every original field
other than the extracted price and quantity keys. -/
def clobEntry (L : PyVal) : Except PyExc OrderBookEntry :=
  match L with
  | .dict es => do
    let p ← pyFloat (L.dgetD "price" (L.dgetD "px" (.int 0)))
    let q ← pyFloat (L.dgetD "size" (L.dgetD "quantity" (L.dgetD "qty" (.int 0))))
    let base : List (String × PyVal) :=
      [("maker", L.dget "maker"), ("timestamp", L.dget "timestamp"),
       ("order_id", L.dget "order_id")]
    let kept := es.filter fun kv =>
      ¬ (kv.1 = "price" ∨ kv.1 = "px" ∨ kv.1 = "size" ∨ kv.1 = "quantity" ∨ kv.1 = "qty")
    pure ⟨p, q, .dict (dictMerge base kept)⟩
  | _ => .error .attributeError

/-- Model of `PolymarketClient._normalize_orderbook`: unwrap a `data`
envelope, read `bids`/`asks` (falling back to `buy`/`sell` when the primary
key yields a falsy value and the alternate key exists), extract levels, and
stably sort both sides. -/
def normalize_orderbook (tz : ℤ) (market_id : String) (orderbook_data : PyVal) :
    Except PyExc OrderBook := do
  let data := if orderbook_data.hasKey "data" then orderbook_data.dget "data"
              else orderbook_data
  let raw_bids0 ← pyGet data "bids" (.list [])
  let raw_asks0 ← pyGet data "asks" (.list [])
  let raw_bids ← if ¬ raw_bids0.truthy ∧ data.hasKey "buy" then pyGet data "buy" (.list [])
                 else pure raw_bids0
  let raw_asks ← if ¬ raw_asks0.truthy ∧ data.hasKey "sell" then pyGet data "sell" (.list [])
                 else pure raw_asks0
  let bids_l ← pyIter raw_bids
  let asks_l ← pyIter raw_asks
  let bs ← mapExcept clobEntry bids_l
  let as_ ← mapExcept clobEntry asks_l
  let timestamp ← obTimestamp tz data
  pure { market_id := market_id
         bids := List.insertionSort bidRel bs
         asks := List.insertionSort askRel as_
         timestamp := timestamp
         metadata := orderbook_data }

end Polymarket

/-! ### Pagination (`fetch_all_markets` of both clients)

The upstream HTTP boundary is modelled as a script: the list of outcomes
of the successive requests (one element consumed per request issued, also
on a retried page).  A run that would issue more requests than the script
provides has no determined result and returns `Option.none`; rate-limiter
calls, logging and the progress callback are effects without influence on
the returned data and are not modelled.  Request parameters (cursor,
offset, per-page limit) are sent to the upstream but do not constrain the
scripted responses, which lets the theorems quantify over upstreams that
honor or ignore them. -/

/-- Python `if limit and total_fetched >= limit` (a zero limit is falsy and
disables the bound). -/
def limitHit (limit : Option ℤ) (total : ℕ) : Bool :=
  match limit with
  | some l => l ≠ 0 ∧ l ≤ (total : ℤ)
  | Option.none => false

/-- Python `if max_pages and page_num >= max_pages`. -/
def pagesHit (max_pages : Option ℤ) (page_num : ℤ) : Bool :=
  match max_pages with
  | some m => m ≠ 0 ∧ m ≤ page_num
  | Option.none => false

namespace Kalshi

/-- Model of one SDK `get_markets` response: the `markets` and cursor
attributes (a missing attribute behaves like a `None` value everywhere the
paginator reads them, so both are a single `PyVal`; the cursor is read from
`cursor` or `next_cursor`, collapsed here to one field). -/
structure Page where
  markets : PyVal
  cursor : PyVal

/-- Outcome of one scripted SDK request: a response page, or an
`ApiException` with an optional HTTP status. -/
inductive Api where
  | ok (page : Page)
  | exn (status : Option ℤ)

/-- Model of the typed `KalshiAPIError`. -/
structure KalshiAPIError where
  msg : String
deriving DecidableEq, Repr

/-- Normalized markets of one response page: `if hasattr(response,
markets) and response.markets:` guards a loop normalizing each entry (the
SDK-model-to-dict conversion is the identity on the dict payloads the
script carries). -/
def pageMarkets (tz : ℤ) (pg : Page) : Except PyExc (List Market) :=
  if pg.markets.truthy then do
    let ms ← pyIter pg.markets
    mapExcept (normalize_market tz) ms
  else .ok []

/-- Loop of `KalshiClient.fetch_all_markets`, driven by the request script.
A 429 `ApiException` retries the same page (consuming the next scripted
response); any other `ApiException` ends the run with the accumulated
markets when there are any and raises the typed error otherwise; a page
with a falsy cursor or no normalized markets ends the pagination.  An
exception escaping normalization reaches the outer handler, which applies
the same partial-result policy. -/
def fetchAllFrom (tz : ℤ) (limit max_pages : Option ℤ) (script : List Api)
    (acc : List Market) (page_num : ℤ) : Option (Except KalshiAPIError (List Market)) :=
  if limitHit limit acc.length then some (.ok acc)
  else if pagesHit max_pages page_num then some (.ok acc)
  else
    match script with
    | [] => Option.none
    | .ok pg :: rest =>
      match pageMarkets tz pg with
      | .error _ =>
        some (if acc.isEmpty then .error ⟨"Failed to fetch Kalshi markets"⟩ else .ok acc)
      | .ok pms =>
        let acc' := acc ++ pms
        if ¬ pg.cursor.truthy ∨ pms.isEmpty then some (.ok acc')
        else fetchAllFrom tz limit max_pages rest acc' (page_num + 1)
    | .exn status :: rest =>
      if status = some 429 then fetchAllFrom tz limit max_pages rest acc page_num
      else if ¬ acc.isEmpty then some (.ok acc)
      else some (.error ⟨"Failed to fetch Kalshi markets"⟩)

/-- Model of `KalshiClient.fetch_all_markets` (the `page_size` request
parameter only shapes the per-page limit sent upstream and never affects
which scripted response arrives, so it does not appear). -/
def fetch_all_markets (tz : ℤ) (limit max_pages : Option ℤ) (script : List Api) :
    Option (Except KalshiAPIError (List Market)) :=
  fetchAllFrom tz limit max_pages script [] 0

end Kalshi

namespace Polymarket

/-- Outcome of one scripted `_make_gamma_request` call: the decoded JSON
response, or a `PolymarketAPIError` after the executor exhausted its own
retries. -/
inductive Api where
  | ok (response : PyVal)
  | exn

/-- Model of the typed `PolymarketAPIError`. -/
structure PolymarketAPIError where
  msg : String
deriving DecidableEq, Repr

/-- Trimming of the accumulated markets to the limit
(`all_markets[:limit]`) when one is set. -/
def trimToLimit (limit : Option ℤ) (xs : List Market) : List Market :=
  match limit with
  | some l => xs.take l.toNat
  | Option.none => xs

/-- Per-page requested size: `min(limit - total_fetched, page_size)` when a
truthy limit is set, else `page_size`. -/
def pageLimitOf (limit : Option ℤ) (page_size : ℤ) (total : ℕ) : ℤ :=
  match limit with
  | some l => if l ≠ 0 then min (l - (total : ℤ)) page_size else page_size
  | Option.none => page_size

/-- Inner loop over the markets of one event, with the per-market limit
check (`total_fetched` is the accumulated count plus the page so far). -/
def processMarkets (tz : ℤ) (limit : Option ℤ) (accLen : ℕ) (ev : PyVal)
    (ms : List PyVal) (page : List Market) : Except PyExc (List Market) :=
  match ms with
  | [] => .ok page
  | m :: rest =>
    if limitHit limit (accLen + page.length) then .ok page
    else do
      let mk ← normalize_market tz m (some ev)
      processMarkets tz limit accLen ev rest (page ++ [mk])

/-- Loop over the events of one page: an event with a `markets` list
contributes each contained market (normalized against the event), any
other event is normalized as a market itself; limit checks precede every
normalization. -/
def processEvents (tz : ℤ) (limit : Option ℤ) (accLen : ℕ)
    (evs : List PyVal) (page : List Market) : Except PyExc (List Market) :=
  match evs with
  | [] => .ok page
  | ev :: rest =>
    if limitHit limit (accLen + page.length) then .ok page
    else do
      let hasM ← pyContains "markets" ev
      if hasM then do
        let sub ← pySubscript ev "markets"
        match sub with
        | .list ms => do
          let page' ← processMarkets tz limit accLen ev ms page
          processEvents tz limit accLen rest page'
        | _ =>
          if limitHit limit (accLen + page.length) then .ok page
          else do
            let mk ← normalize_market tz ev Option.none
            processEvents tz limit accLen rest (page ++ [mk])
      else
        if limitHit limit (accLen + page.length) then .ok page
        else do
          let mk ← normalize_market tz ev Option.none
          processEvents tz limit accLen rest (page ++ [mk])

/-- Envelope unwrapping of a Gamma events response: the value under a
`data` or `events` key of a dict response, else the response itself. -/
def eventsOf (resp : PyVal) : PyVal :=
  if resp.hasKey "data" then resp.dget "data"
  else if resp.hasKey "events" then resp.dget "events"
  else resp

/-- Normalized markets of one response page: the unwrapped events are
processed when they form a list; a non-list yields no markets. -/
def pageMarkets (tz : ℤ) (limit : Option ℤ) (accLen : ℕ) (resp : PyVal) :
    Except PyExc (List Market) :=
  match eventsOf resp with
  | .list evs => processEvents tz limit accLen evs []
  | _ => .ok []

/-- Loop of `PolymarketClient.fetch_all_markets`: unwrap the events from a
`data`/`events` envelope, process them, stop on an empty page, trim and
stop when the limit is reached, stop when the page yielded fewer markets
than the requested page limit, and apply the partial-result policy when a
request or a normalization fails. -/
def fetchAllFrom (tz : ℤ) (limit max_pages : Option ℤ) (page_size : ℤ)
    (script : List Api) (acc : List Market) (page_num : ℤ) :
    Option (Except PolymarketAPIError (List Market)) :=
  if limitHit limit acc.length then some (.ok acc)
  else if pagesHit max_pages page_num then some (.ok acc)
  else
    match script with
    | [] => Option.none
    | .exn :: _ =>
      if ¬ acc.isEmpty then some (.ok acc)
      else some (.error ⟨"Failed to fetch Polymarket markets"⟩)
    | .ok resp :: rest =>
      match pageMarkets tz limit acc.length resp with
      | .error _ =>
        some (if acc.isEmpty then .error ⟨"Failed to fetch Polymarket markets"⟩
              else .ok acc)
      | .ok pms =>
        if pms.isEmpty then some (.ok acc)
        else
          let acc' := acc ++ pms
          if limitHit limit acc'.length then
            some (.ok (trimToLimit limit acc'))
          else if (pms.length : ℤ) < pageLimitOf limit page_size acc.length then
            some (.ok acc')
          else fetchAllFrom tz limit max_pages page_size rest acc' (page_num + 1)

/-- Model of `PolymarketClient.fetch_all_markets` (the default page size in
the source is 100; `closed`, `order`, `ascending` and `offset` only shape
the query string sent upstream). -/
def fetch_all_markets (tz : ℤ) (limit max_pages : Option ℤ) (page_size : ℤ)
    (script : List Api) : Option (Except PolymarketAPIError (List Market)) :=
  fetchAllFrom tz limit max_pages page_size script [] 0

end Polymarket

/-! ### General lemmas about the model -/

theorem mapExcept_ok_cons {ε α β : Type} (f : α → Except ε β) (x : α) (xs : List α)
    (y : β) (ys : List β) (hx : f x = .ok y) (hxs : mapExcept f xs = .ok ys) :
    mapExcept f (x :: xs) = .ok (y :: ys) := by
  simp [mapExcept, hx, hxs, Bind.bind, Except.bind, pure, Except.pure]

theorem mapExcept_mem {ε α β : Type} (f : α → Except ε β) :
    ∀ {xs : List α} {ys : List β}, mapExcept f xs = .ok ys →
      ∀ {x : α}, x ∈ xs → ∃ y ∈ ys, f x = .ok y := by
  intro xs
  induction xs with
  | nil => intro ys _ x hx; cases hx
  | cons a as ih =>
    intro ys h x hx
    rw [show mapExcept f (a :: as) =
          (f a).bind (fun y => (mapExcept f as).bind fun ys0 => .ok (y :: ys0)) from rfl] at h
    cases ha : f a with
    | error e => rw [ha] at h; cases h
    | ok y =>
      rw [ha] at h
      cases has : mapExcept f as with
      | error e => rw [has] at h; cases h
      | ok ys0 =>
        rw [has] at h
        cases h
        rcases List.mem_cons.mp hx with hxa | hxas
        · exact ⟨y, List.mem_cons_self _ _, hxa ▸ ha⟩
        · obtain ⟨y', hy', hfy'⟩ := ih has hxas
          exact ⟨y', List.mem_cons_of_mem _ hy', hfy'⟩

theorem mapExcept_forall {ε α β : Type} (f : α → Except ε β) :
    ∀ {xs : List α} {ys : List β}, mapExcept f xs = .ok ys →
      ∀ {y : β}, y ∈ ys → ∃ x ∈ xs, f x = .ok y := by
  intro xs
  induction xs with
  | nil =>
    intro ys h y hy
    rw [show mapExcept f [] = .ok [] from rfl] at h
    cases h; cases hy
  | cons a as ih =>
    intro ys h y hy
    rw [show mapExcept f (a :: as) =
          (f a).bind (fun y => (mapExcept f as).bind fun ys0 => .ok (y :: ys0)) from rfl] at h
    cases ha : f a with
    | error e => rw [ha] at h; cases h
    | ok y0 =>
      rw [ha] at h
      cases has : mapExcept f as with
      | error e => rw [has] at h; cases h
      | ok ys0 =>
        rw [has] at h
        cases h
        rcases List.mem_cons.mp hy with hya | hyas
        · exact ⟨a, List.mem_cons_self _ _, hya ▸ ha⟩
        · obtain ⟨x, hx, hfx⟩ := ih has hyas
          exact ⟨x, List.mem_cons_of_mem _ hx, hfx⟩

theorem mapExcept_isOk {ε α β : Type} (f : α → Except ε β) :
    ∀ (xs : List α), (∀ x ∈ xs, (f x).isOk) → (mapExcept f xs).isOk := by
  intro xs
  induction xs with
  | nil => intro _; rfl
  | cons a as ih =>
    intro h
    have ha := h a (List.mem_cons_self _ _)
    cases hfa : f a with
    | error e => rw [hfa] at ha; cases ha
    | ok y =>
      have has := ih fun x hx => h x (List.mem_cons_of_mem _ hx)
      cases hmas : mapExcept f as with
      | error e => rw [hmas] at has; cases has
      | ok ys => rw [mapExcept_ok_cons f a as y ys hfa hmas]; rfl

theorem pyGet_ok_dget (v : PyVal) (k : String) (x : PyVal)
    (h : pyGet v k .none = .ok x) : x = v.dget k := by
  cases v <;> simp [pyGet, PyVal.dget] at h ⊢ <;> simp [h]

theorem yesNoEntry_eval (fk : String) (inv : Bool) (L : PyVal) (hL : L.isDict = true)
    (p q : ℚ) (hp : pyFloat (L.dgetD "price" (L.dgetD fk (.int 0))) = .ok p)
    (hq : pyFloat (L.dgetD "quantity" (L.dgetD "size" (.int 0))) = .ok q) :
    Kalshi.yesNoEntry fk inv L = .ok ⟨if inv then 1 - p else p, q, L⟩ := by
  cases L <;> simp [PyVal.isDict] at hL
  simp [Kalshi.yesNoEntry, hp, hq, bind, Except.bind, pure, Except.pure]

/-- Where each raw level of a dual-sided Kalshi book lands: given a
successful yes/no side computation, every level of the four raw side lists
has its extracted entry in the corresponding pre-sort output side. -/
theorem yesNoSides_mem (data : PyVal) (sides : List OrderBookEntry × List OrderBookEntry)
    (h : Kalshi.yesNoSides data = .ok sides) :
    (∀ ls, Kalshi.sideList (pyOr (data.dget "yes") (.dict [])) "bids" = .ok ls →
      ∀ L ∈ ls, ∀ e, Kalshi.yesNoEntry "yes_price" false L = .ok e → e ∈ sides.1)
    ∧ (∀ ls, Kalshi.sideList (pyOr (data.dget "yes") (.dict [])) "asks" = .ok ls →
      ∀ L ∈ ls, ∀ e, Kalshi.yesNoEntry "yes_price" false L = .ok e → e ∈ sides.2)
    ∧ (∀ ls, Kalshi.sideList (pyOr (data.dget "no") (.dict [])) "bids" = .ok ls →
      ∀ L ∈ ls, ∀ e, Kalshi.yesNoEntry "no_price" true L = .ok e → e ∈ sides.2)
    ∧ (∀ ls, Kalshi.sideList (pyOr (data.dget "no") (.dict [])) "asks" = .ok ls →
      ∀ L ∈ ls, ∀ e, Kalshi.yesNoEntry "no_price" true L = .ok e → e ∈ sides.1) := by
  unfold Kalshi.yesNoSides at h
  simp only [bind, Except.bind, pure, Except.pure] at h
  cases hgy : pyGet data "yes" PyVal.none with
  | error er => simp only [hgy] at h; cases h
  | ok ydv =>
    simp only [hgy] at h
    cases hgn : pyGet data "no" PyVal.none with
    | error er => simp only [hgn] at h; cases h
    | ok ndv =>
      simp only [hgn] at h
      cases hyb : Kalshi.sideList (pyOr ydv (.dict [])) "bids" with
      | error er => simp only [hyb] at h; cases h
      | ok ybl =>
        simp only [hyb] at h
        cases hya : Kalshi.sideList (pyOr ydv (.dict [])) "asks" with
        | error er => simp only [hya] at h; cases h
        | ok yal =>
          simp only [hya] at h
          cases hnb : Kalshi.sideList (pyOr ndv (.dict [])) "bids" with
          | error er => simp only [hnb] at h; cases h
          | ok nbl =>
            simp only [hnb] at h
            cases hna : Kalshi.sideList (pyOr ndv (.dict [])) "asks" with
            | error er => simp only [hna] at h; cases h
            | ok nal =>
              simp only [hna] at h
              cases hmyb : mapExcept (Kalshi.yesNoEntry "yes_price" false) ybl with
              | error er => simp only [hmyb] at h; cases h
              | ok yb =>
                simp only [hmyb] at h
                cases hmya : mapExcept (Kalshi.yesNoEntry "yes_price" false) yal with
                | error er => simp only [hmya] at h; cases h
                | ok ya =>
                  simp only [hmya] at h
                  cases hmnb : mapExcept (Kalshi.yesNoEntry "no_price" true) nbl with
                  | error er => simp only [hmnb] at h; cases h
                  | ok nb =>
                    simp only [hmnb] at h
                    cases hmna : mapExcept (Kalshi.yesNoEntry "no_price" true) nal with
                    | error er => simp only [hmna] at h; cases h
                    | ok na =>
                      simp only [hmna] at h
                      cases h
                      rw [pyGet_ok_dget data "yes" ydv hgy] at hyb hya
                      rw [pyGet_ok_dget data "no" ndv hgn] at hnb hna
                      refine ⟨?_, ?_, ?_, ?_⟩ <;> intro ls hside L hL e he
                      · rw [hside] at hyb
                        injection hyb with h'
                        subst h'
                        obtain ⟨y, hy, hfy⟩ := mapExcept_mem _ hmyb hL
                        rw [he] at hfy
                        injection hfy with hfy'
                        subst hfy'
                        exact List.mem_append_left _ hy
                      · rw [hside] at hya
                        injection hya with h'
                        subst h'
                        obtain ⟨y, hy, hfy⟩ := mapExcept_mem _ hmya hL
                        rw [he] at hfy
                        injection hfy with hfy'
                        subst hfy'
                        exact List.mem_append_left _ hy
                      · rw [hside] at hnb
                        injection hnb with h'
                        subst h'
                        obtain ⟨y, hy, hfy⟩ := mapExcept_mem _ hmnb hL
                        rw [he] at hfy
                        injection hfy with hfy'
                        subst hfy'
                        exact List.mem_append_right _ hy
                      · rw [hside] at hna
                        injection hna with h'
                        subst h'
                        obtain ⟨y, hy, hfy⟩ := mapExcept_mem _ hmna hL
                        rw [he] at hfy
                        injection hfy with hfy'
                        subst hfy'
                        exact List.mem_append_right _ hy

theorem pyOr_of_truthy (a b : PyVal) (h : a.truthy = true) : pyOr a b = a := by
  simp [pyOr, h]

theorem dget_dict (d : List (String × PyVal)) (k : String) :
    (PyVal.dict d).dget k = (dlookup d k).getD .none := rfl

/-- Inversion of a successful Kalshi market normalization: the produced
market is exactly the record the source builds, field by field. -/
theorem kalshi_normalize_market_ok (tz : ℤ) (d : List (String × PyVal)) (m : Market)
    (hok : Kalshi.normalize_market tz (.dict d) = .ok m) :
    ∃ rd, Kalshi.parseExpiration tz
        (pyOr ((PyVal.dict d).dget "expected_expiration_time")
          ((PyVal.dict d).dget "expiration_time")) = .ok rd ∧
      m = { market_id := pyStr (pyOr ((PyVal.dict d).dget "ticker")
              (pyOr ((PyVal.dict d).dget "event_ticker")
                (pyOr ((PyVal.dict d).dget "market_id")
                  (pyOr ((PyVal.dict d).dget "id")
                    (.str (pyStr ((PyVal.dict d).dgetD "event_id" (.str ""))))))))
            name := pyOr ((PyVal.dict d).dget "title")
              (pyOr ((PyVal.dict d).dget "name")
                (pyOr ((PyVal.dict d).dget "event_title")
                  (pyOr ((PyVal.dict d).dget "question") (.str ""))))
            rules := pyOr ((PyVal.dict d).dget "rules")
              (pyOr ((PyVal.dict d).dget "subtitle")
                (pyOr ((PyVal.dict d).dget "description") (.str "")))
            metadata :=
              { resolve_date := rd.1
                resolve_time := rd.2
                category := pyOr ((PyVal.dict d).dget "category")
                  ((PyVal.dict d).dget "series_ticker")
                subcategory := (PyVal.dict d).dget "subcategory"
                tags := pyOr ((PyVal.dict d).dget "tags") ((PyVal.dict d).dget "keywords")
                description := pyOr ((PyVal.dict d).dget "description")
                  ((PyVal.dict d).dget "subtitle")
                image_url := pyOr ((PyVal.dict d).dget "image_url")
                  ((PyVal.dict d).dget "image")
                liquidity := (PyVal.dict d).dget "liquidity"
                volume := pyOr ((PyVal.dict d).dget "volume")
                  ((PyVal.dict d).dget "total_volume")
                extra := .dict
                  [("status", (PyVal.dict d).dget "status"),
                   ("yes_bid", (PyVal.dict d).dget "yes_bid"),
                   ("yes_ask", (PyVal.dict d).dget "yes_ask"),
                   ("no_bid", (PyVal.dict d).dget "no_bid"),
                   ("no_ask", (PyVal.dict d).dget "no_ask"),
                   ("last_price", (PyVal.dict d).dget "last_price"),
                   ("previous_price", (PyVal.dict d).dget "previous_price"),
                   ("event_ticker", (PyVal.dict d).dget "event_ticker"),
                   ("series_ticker", (PyVal.dict d).dget "series_ticker")] }
            exchange := "kalshi"
            extra := .dict d } := by
  unfold Kalshi.normalize_market at hok
  rw [if_pos (show (PyVal.dict d).isDict = true from rfl)] at hok
  simp only [bind, Except.bind, pure, Except.pure] at hok
  cases hpe : Kalshi.parseExpiration tz
      (pyOr ((PyVal.dict d).dget "expected_expiration_time")
        ((PyVal.dict d).dget "expiration_time")) with
  | error er => simp only [hpe] at hok; cases hok
  | ok rd =>
    simp only [hpe] at hok
    cases hok
    exact ⟨rd, rfl, rfl⟩

/-- Inversion of a successful Polymarket market normalization without
event data: the merged view is the market payload itself and the produced
market is exactly the record the source builds. -/
theorem polymarket_normalize_market_ok (tz : ℤ) (d : List (String × PyVal)) (m : Market)
    (hok : Polymarket.normalize_market tz (.dict d) Option.none = .ok m) :
    ∃ rd, Polymarket.parseResolution tz
        (pyOr ((PyVal.dict d).dget "resolution_date")
          (pyOr ((PyVal.dict d).dget "endDate")
            (pyOr ((PyVal.dict d).dget "end_date")
              (pyOr ((PyVal.dict d).dget "endDate") ((PyVal.dict d).dget "end_date"))))) = .ok rd ∧
      m = { market_id := pyStr (pyOr ((PyVal.dict d).dget "slug")
              (pyOr ((PyVal.dict d).dget "slug")
                (pyOr ((PyVal.dict d).dget "condition_id")
                  (pyOr ((PyVal.dict d).dget "conditionId")
                    (pyOr ((PyVal.dict d).dget "conditionId")
                      (pyOr ((PyVal.dict d).dget "token_id")
                        (pyOr ((PyVal.dict d).dget "id")
                          (pyOr ((PyVal.dict d).dget "id")
                            (pyOr ((PyVal.dict d).dget "market_id") (.str ""))))))))))
            name := pyOr ((PyVal.dict d).dget "question")
              (pyOr ((PyVal.dict d).dget "question")
                (pyOr ((PyVal.dict d).dget "title")
                  (pyOr ((PyVal.dict d).dget "title")
                    (pyOr ((PyVal.dict d).dget "name")
                      (pyOr ((PyVal.dict d).dget "name")
                        (pyOr ((PyVal.dict d).dget "market_title") (.str "")))))))
            rules := pyOr ((PyVal.dict d).dget "description")
              (pyOr ((PyVal.dict d).dget "description")
                (pyOr ((PyVal.dict d).dget "rules")
                  (pyOr ((PyVal.dict d).dget "rules")
                    (pyOr ((PyVal.dict d).dget "resolutionRules")
                      (pyOr ((PyVal.dict d).dget "resolution_rules")
                        (pyOr ((PyVal.dict d).dget "subtitle") (.str "")))))))
            metadata :=
              { resolve_date := rd.1
                resolve_time := rd.2
                category := pyOr ((PyVal.dict d).dget "category")
                  (pyOr ((PyVal.dict d).dget "groupItemTitle")
                    (pyOr ((PyVal.dict d).dget "group_item_title")
                      ((PyVal.dict d).dget "category")))
                subcategory := pyOr ((PyVal.dict d).dget "subcategory")
                  ((PyVal.dict d).dget "subcategory")
                tags := pyOr ((PyVal.dict d).dget "tags") ((PyVal.dict d).dget "tags")
                description := pyOr ((PyVal.dict d).dget "description")
                  (pyOr ((PyVal.dict d).dget "description") ((PyVal.dict d).dget "subtitle"))
                image_url := pyOr ((PyVal.dict d).dget "imageUrl")
                  (pyOr ((PyVal.dict d).dget "image_url")
                    (pyOr ((PyVal.dict d).dget "imageUrl") ((PyVal.dict d).dget "image")))
                liquidity := pyOr ((PyVal.dict d).dget "liquidity")
                  (pyOr ((PyVal.dict d).dget "liquidity")
                    ((PyVal.dict d).dget "liquidity_usd"))
                volume := pyOr ((PyVal.dict d).dget "volume")
                  (pyOr ((PyVal.dict d).dget "volume")
                    (pyOr ((PyVal.dict d).dget "volume_usd")
                      ((PyVal.dict d).dget "total_volume")))
                extra := .dict
                  [("outcomes", pyOr ((PyVal.dict d).dget "outcomes")
                      ((PyVal.dict d).dget "outcomes")),
                   ("active", pyOr ((PyVal.dict d).dget "active")
                      ((PyVal.dict d).dget "active")),
                   ("closed", pyOr ((PyVal.dict d).dget "closed")
                      ((PyVal.dict d).dget "closed")),
                   ("new", pyOr ((PyVal.dict d).dget "new") ((PyVal.dict d).dget "new")),
                   ("end_date_iso", pyOr ((PyVal.dict d).dget "end_date_iso")
                      ((PyVal.dict d).dget "end_date_iso")),
                   ("start_date_iso", pyOr ((PyVal.dict d).dget "start_date_iso")
                      ((PyVal.dict d).dget "start_date_iso")),
                   ("clobTokenIds", pyOr ((PyVal.dict d).dget "clobTokenIds")
                      (pyOr ((PyVal.dict d).dget "clob_token_ids")
                        ((PyVal.dict d).dget "clobTokenIds"))),
                   ("conditionId", pyOr ((PyVal.dict d).dget "conditionId")
                      (pyOr ((PyVal.dict d).dget "condition_id")
                        ((PyVal.dict d).dget "conditionId"))),
                   ("token_id", pyOr ((PyVal.dict d).dget "token_id")
                      ((PyVal.dict d).dget "token_id"))] }
            exchange := "polymarket"
            extra := .dict (dictMerge d d) } := by
  unfold Polymarket.normalize_market at hok
  rw [if_pos (show (PyVal.dict d).isDict = true from rfl)] at hok
  simp only [bind, Except.bind, pure, Except.pure] at hok
  cases hpe : Polymarket.parseResolution tz
      (pyOr ((PyVal.dict d).dget "resolution_date")
        (pyOr ((PyVal.dict d).dget "endDate")
          (pyOr ((PyVal.dict d).dget "end_date")
            (pyOr ((PyVal.dict d).dget "endDate") ((PyVal.dict d).dget "end_date"))))) with
  | error er => simp only [hpe] at hok; cases hok
  | ok rd =>
    simp only [hpe] at hok
    cases hok
    exact ⟨rd, rfl, rfl⟩

theorem sorted_bids_chain (l : List OrderBookEntry) :
    (List.insertionSort bidRel l).Chain' (fun a b => b.price ≤ a.price) :=
  (List.sorted_insertionSort bidRel l).chain'

theorem sorted_asks_chain (l : List OrderBookEntry) :
    (List.insertionSort askRel l).Chain' (fun a b => a.price ≤ b.price) :=
  (List.sorted_insertionSort askRel l).chain'

/-! ### Claim theorems -/

theorem dgetD_dict (d : List (String × PyVal)) (k : String) (dflt : PyVal) :
    (PyVal.dict d).dgetD k dflt = (dlookup d k).getD dflt := rfl

/-- Every market produced by a Kalshi normalization carries the fixed
exchange tag. -/
theorem kalshi_normalize_exchange (tz : ℤ) (d : PyVal) (m : Market)
    (hok : Kalshi.normalize_market tz d = .ok m) : m.exchange = "kalshi" := by
  unfold Kalshi.normalize_market at hok
  simp only [bind, Except.bind, pure, Except.pure] at hok
  repeat' split at hok
  all_goals try exact absurd hok (fun h => Except.noConfusion h)
  all_goals cases hok
  all_goals rfl

/-- Every market produced by a Polymarket normalization carries the fixed
exchange tag (with or without event data). -/
theorem polymarket_normalize_exchange (tz : ℤ) (d : PyVal) (ev : Option PyVal) (m : Market)
    (hok : Polymarket.normalize_market tz d ev = .ok m) : m.exchange = "polymarket" := by
  unfold Polymarket.normalize_market at hok
  simp only [bind, Except.bind, pure, Except.pure] at hok
  repeat' split at hok
  all_goals try exact absurd hok (fun h => Except.noConfusion h)
  all_goals cases hok
  all_goals rfl

theorem kalshi_pageMarkets_exchange (tz : ℤ) (pg : Kalshi.Page) (pms : List Market)
    (h : Kalshi.pageMarkets tz pg = .ok pms) : ∀ m ∈ pms, m.exchange = "kalshi" := by
  intro m hm
  unfold Kalshi.pageMarkets at h
  split at h
  · simp only [bind, Except.bind] at h
    cases hit : pyIter pg.markets with
    | error er => rw [hit] at h; cases h
    | ok ms =>
      rw [hit] at h
      obtain ⟨x, -, hfx⟩ := mapExcept_forall _ h hm
      exact kalshi_normalize_exchange tz x m hfx
  · cases h
    cases hm

theorem kalshi_fetch_exchange_aux (tz : ℤ) (limit mp : Option ℤ) :
    ∀ (script : List Kalshi.Api) (acc : List Market) (pn : ℤ) (ms : List Market),
      (∀ m ∈ acc, m.exchange = "kalshi") →
      Kalshi.fetchAllFrom tz limit mp script acc pn = some (.ok ms) →
      ∀ m ∈ ms, m.exchange = "kalshi" := by
  intro script
  induction script with
  | nil =>
    intro acc pn ms hacc h
    unfold Kalshi.fetchAllFrom at h
    split at h
    · cases h; exact hacc
    · split at h
      · cases h; exact hacc
      · cases h
  | cons hd rest ih =>
    intro acc pn ms hacc h
    unfold Kalshi.fetchAllFrom at h
    split at h
    · cases h; exact hacc
    · split at h
      · cases h; exact hacc
      · rcases hd with pg | st
        · dsimp only at h
          cases hpm : Kalshi.pageMarkets tz pg with
          | error er =>
            simp only [hpm] at h
            split at h
            · injection h with h1; exact Except.noConfusion h1
            · injection h with h1
              injection h1 with h2
              subst h2
              exact hacc
          | ok pms =>
            simp only [hpm] at h
            have hall : ∀ m ∈ acc ++ pms, m.exchange = "kalshi" := by
              intro m hm
              rcases List.mem_append.mp hm with hm | hm
              · exact hacc m hm
              · exact kalshi_pageMarkets_exchange tz pg pms hpm m hm
            split at h
            · injection h with h1
              injection h1 with h2
              subst h2
              exact hall
            · exact ih _ _ _ hall h
        · dsimp only at h
          split at h
          · exact ih _ _ _ hacc h
          · split at h
            · injection h with h1
              injection h1 with h2
              subst h2
              exact hacc
            · injection h with h1; exact Except.noConfusion h1

theorem polymarket_processMarkets_exchange (tz : ℤ) (limit : Option ℤ) (accLen : ℕ)
    (ev : PyVal) :
    ∀ (ms : List PyVal) (page page' : List Market),
      Polymarket.processMarkets tz limit accLen ev ms page = .ok page' →
      (∀ m ∈ page, m.exchange = "polymarket") → ∀ m ∈ page', m.exchange = "polymarket" := by
  intro ms
  induction ms with
  | nil =>
    intro page page' h hp
    unfold Polymarket.processMarkets at h
    cases h; exact hp
  | cons x rest ih =>
    intro page page' h hp
    unfold Polymarket.processMarkets at h
    split at h
    · cases h; exact hp
    · simp only [bind, Except.bind] at h
      cases hn : Polymarket.normalize_market tz x (some ev) with
      | error er => rw [hn] at h; cases h
      | ok mk =>
        rw [hn] at h
        refine ih _ _ h fun m hm => ?_
        rcases List.mem_append.mp hm with hm | hm
        · exact hp m hm
        · rw [List.mem_singleton.mp hm]
          exact polymarket_normalize_exchange tz x (some ev) mk hn

theorem polymarket_processEvents_exchange (tz : ℤ) (limit : Option ℤ) (accLen : ℕ) :
    ∀ (evs : List PyVal) (page page' : List Market),
      Polymarket.processEvents tz limit accLen evs page = .ok page' →
      (∀ m ∈ page, m.exchange = "polymarket") → ∀ m ∈ page', m.exchange = "polymarket" := by
  intro evs
  induction evs with
  | nil =>
    intro page page' h hp
    unfold Polymarket.processEvents at h
    cases h; exact hp
  | cons ev rest ih =>
    intro page page' h hp
    unfold Polymarket.processEvents at h
    split at h
    · cases h; exact hp
    · simp only [bind, Except.bind] at h
      cases hc : pyContains "markets" ev with
      | error er => rw [hc] at h; cases h
      | ok hasM =>
        cases hasM with
        | true =>
          simp only [hc, eq_self_iff_true, if_true] at h
          cases hsub : pySubscript ev "markets" with
          | error er => simp only [hsub] at h; cases h
          | ok sub =>
            simp only [hsub] at h
            cases sub
            case list ms =>
              cases hpm : Polymarket.processMarkets tz limit accLen ev ms page with
              | error er => simp only [hpm] at h; cases h
              | ok page1 =>
                simp only [hpm] at h
                exact ih _ _ h
                  (polymarket_processMarkets_exchange tz limit accLen ev ms page page1 hpm hp)
            all_goals (
              cases hn : Polymarket.normalize_market tz ev Option.none with
              | error er => simp only [hn] at h; cases h
              | ok mk =>
                simp only [hn] at h
                refine ih _ _ h fun m hm => ?_
                rcases List.mem_append.mp hm with hm | hm
                · exact hp m hm
                · rw [List.mem_singleton.mp hm]
                  exact polymarket_normalize_exchange tz ev Option.none mk hn)
        | false =>
          simp only [hc, Bool.false_eq_true, if_false] at h
          cases hn : Polymarket.normalize_market tz ev Option.none with
          | error er => simp only [hn] at h; cases h
          | ok mk =>
            simp only [hn] at h
            refine ih _ _ h fun m hm => ?_
            rcases List.mem_append.mp hm with hm | hm
            · exact hp m hm
            · rw [List.mem_singleton.mp hm]
              exact polymarket_normalize_exchange tz ev Option.none mk hn

theorem Polymarket.trimToLimit_subset (limit : Option ℤ) (xs : List Market) :
    ∀ m ∈ Polymarket.trimToLimit limit xs, m ∈ xs := by
  intro m hm
  cases limit with
  | none => exact hm
  | some l => exact List.take_subset _ _ hm

theorem polymarket_pageMarkets_exchange (tz : ℤ) (limit : Option ℤ) (accLen : ℕ)
    (resp : PyVal) (pms : List Market)
    (h : Polymarket.pageMarkets tz limit accLen resp = .ok pms) :
    ∀ m ∈ pms, m.exchange = "polymarket" := by
  unfold Polymarket.pageMarkets at h
  cases hev : Polymarket.eventsOf resp
  case list evs =>
    rw [hev] at h
    exact polymarket_processEvents_exchange tz limit accLen evs [] pms h
      (fun m hm => absurd hm (List.not_mem_nil m))
  all_goals rw [hev] at h
  all_goals cases h
  all_goals exact fun m hm => absurd hm (List.not_mem_nil m)

theorem polymarket_fetch_exchange_aux (tz : ℤ) (limit mp : Option ℤ) (ps : ℤ) :
    ∀ (script : List Polymarket.Api) (acc : List Market) (pn : ℤ) (ms : List Market),
      (∀ m ∈ acc, m.exchange = "polymarket") →
      Polymarket.fetchAllFrom tz limit mp ps script acc pn = some (.ok ms) →
      ∀ m ∈ ms, m.exchange = "polymarket" := by
  intro script
  induction script with
  | nil =>
    intro acc pn ms hacc h
    unfold Polymarket.fetchAllFrom at h
    split at h
    · cases h; exact hacc
    · split at h
      · cases h; exact hacc
      · cases h
  | cons hd rest ih =>
    intro acc pn ms hacc h
    unfold Polymarket.fetchAllFrom at h
    split at h
    · cases h; exact hacc
    · split at h
      · cases h; exact hacc
      · cases hd with
        | exn =>
          dsimp only at h
          split at h
          · injection h with h1
            injection h1 with h2
            subst h2
            exact hacc
          · injection h with h1; exact Except.noConfusion h1
        | ok resp =>
          dsimp only at h
          cases hpm : Polymarket.pageMarkets tz limit acc.length resp with
          | error er =>
            simp only [hpm] at h
            split at h
            · injection h with h1; exact Except.noConfusion h1
            · injection h with h1
              injection h1 with h2
              subst h2
              exact hacc
          | ok pms =>
            simp only [hpm] at h
            have hall : ∀ m ∈ acc ++ pms, m.exchange = "polymarket" := by
              intro m hm
              rcases List.mem_append.mp hm with hm | hm
              · exact hacc m hm
              · exact polymarket_pageMarkets_exchange tz limit acc.length resp pms hpm m hm
            split at h
            · injection h with h1
              injection h1 with h2
              subst h2
              exact hacc
            · split at h
              · -- limit reached: the result is a prefix of the new accumulator
                injection h with h1
                injection h1 with h2
                subst h2
                exact fun m hm => hall m (Polymarket.trimToLimit_subset _ _ m hm)
              · split at h
                · injection h with h1
                  injection h1 with h2
                  subst h2
                  exact hall
                · exact ih _ _ _ hall h

theorem limitHit_none (n : ℕ) : limitHit Option.none n = false := rfl

theorem pagesHit_none (p : ℤ) : pagesHit Option.none p = false := rfl

theorem kalshi_step_ok (tz : ℤ) (limit mp : Option ℤ) (pg : Kalshi.Page)
    (rest : List Kalshi.Api) (acc : List Market) (pn : ℤ) (pms : List Market)
    (hL : limitHit limit acc.length = false) (hP : pagesHit mp pn = false)
    (hpm : Kalshi.pageMarkets tz pg = .ok pms) :
    Kalshi.fetchAllFrom tz limit mp (.ok pg :: rest) acc pn =
      if ¬ pg.cursor.truthy ∨ pms.isEmpty then some (.ok (acc ++ pms))
      else Kalshi.fetchAllFrom tz limit mp rest (acc ++ pms) (pn + 1) := by
  conv_lhs => unfold Kalshi.fetchAllFrom
  simp only [hL, hP, Bool.false_eq_true, if_false, hpm]

theorem kalshi_step_exn (tz : ℤ) (limit mp : Option ℤ) (st : Option ℤ)
    (rest : List Kalshi.Api) (acc : List Market) (pn : ℤ)
    (hL : limitHit limit acc.length = false) (hP : pagesHit mp pn = false)
    (hst : st ≠ some 429) :
    Kalshi.fetchAllFrom tz limit mp (.exn st :: rest) acc pn =
      if ¬ acc.isEmpty then some (.ok acc)
      else some (.error ⟨"Failed to fetch Kalshi markets"⟩) := by
  conv_lhs => unfold Kalshi.fetchAllFrom
  simp only [hL, hP, Bool.false_eq_true, if_false]
  rw [if_neg hst]

theorem kalshi_step_429 (tz : ℤ) (limit mp : Option ℤ)
    (rest : List Kalshi.Api) (acc : List Market) (pn : ℤ)
    (hL : limitHit limit acc.length = false) (hP : pagesHit mp pn = false) :
    Kalshi.fetchAllFrom tz limit mp (.exn (some 429) :: rest) acc pn =
      Kalshi.fetchAllFrom tz limit mp rest acc pn := by
  conv_lhs => unfold Kalshi.fetchAllFrom
  simp only [hL, hP, Bool.false_eq_true, if_false, if_true]

theorem kalshi_stop_limit (tz : ℤ) (limit mp : Option ℤ) (script : List Kalshi.Api)
    (acc : List Market) (pn : ℤ) (hL : limitHit limit acc.length = true) :
    Kalshi.fetchAllFrom tz limit mp script acc pn = some (.ok acc) := by
  conv_lhs => unfold Kalshi.fetchAllFrom
  rw [if_pos hL]

theorem polymarket_step_ok (tz : ℤ) (limit mp : Option ℤ) (ps : ℤ) (resp : PyVal)
    (rest : List Polymarket.Api) (acc : List Market) (pn : ℤ) (pms : List Market)
    (hL : limitHit limit acc.length = false) (hP : pagesHit mp pn = false)
    (hpm : Polymarket.pageMarkets tz limit acc.length resp = .ok pms) :
    Polymarket.fetchAllFrom tz limit mp ps (.ok resp :: rest) acc pn =
      if pms.isEmpty then some (.ok acc)
      else if limitHit limit (acc ++ pms).length then
        some (.ok (Polymarket.trimToLimit limit (acc ++ pms)))
      else if (pms.length : ℤ) < Polymarket.pageLimitOf limit ps acc.length then
        some (.ok (acc ++ pms))
      else Polymarket.fetchAllFrom tz limit mp ps rest (acc ++ pms) (pn + 1) := by
  conv_lhs => unfold Polymarket.fetchAllFrom
  simp only [hL, hP, Bool.false_eq_true, if_false, hpm]

theorem polymarket_step_exn (tz : ℤ) (limit mp : Option ℤ) (ps : ℤ)
    (rest : List Polymarket.Api) (acc : List Market) (pn : ℤ)
    (hL : limitHit limit acc.length = false) (hP : pagesHit mp pn = false) :
    Polymarket.fetchAllFrom tz limit mp ps (.exn :: rest) acc pn =
      if ¬ acc.isEmpty then some (.ok acc)
      else some (.error ⟨"Failed to fetch Polymarket markets"⟩) := by
  conv_lhs => unfold Polymarket.fetchAllFrom
  simp only [hL, hP, Bool.false_eq_true, if_false]

/-- Empty metadata record (used as a harmless fallback when projecting a
normalization result known to be successful). -/
def emptyMeta : MarketMetadata :=
  ⟨Option.none, Option.none, .none, .none, .none, .none, .none, .none, .none, .none⟩

/-- Empty market record. -/
def emptyMarket : Market := ⟨"", .none, .none, emptyMeta, "", .none⟩

/-- C6: for both clients, every canonical field is resolved by its declared
candidate-key priority list, the first present truthy (non-empty) value
winning: shown for the market id, name, rules and category lists of both
clients, plus the concrete ticker=A, event_ticker=B example resolving to
market id A. -/
theorem field_priority_first_candidate_wins (tz : ℤ) :
    (∀ d v m, dlookup d "ticker" = some v → v.truthy = true →
      Kalshi.normalize_market tz (.dict d) = .ok m → m.market_id = pyStr v)
    ∧ (∀ d v m, dlookup d "title" = some v → v.truthy = true →
      Kalshi.normalize_market tz (.dict d) = .ok m → m.name = v)
    ∧ (∀ d v m, dlookup d "rules" = some v → v.truthy = true →
      Kalshi.normalize_market tz (.dict d) = .ok m → m.rules = v)
    ∧ (∀ d v m, dlookup d "category" = some v → v.truthy = true →
      Kalshi.normalize_market tz (.dict d) = .ok m → m.metadata.category = v)
    ∧ (∀ d v m, dlookup d "slug" = some v → v.truthy = true →
      Polymarket.normalize_market tz (.dict d) Option.none = .ok m → m.market_id = pyStr v)
    ∧ (∀ d v m, dlookup d "question" = some v → v.truthy = true →
      Polymarket.normalize_market tz (.dict d) Option.none = .ok m → m.name = v)
    ∧ (∀ d v m, dlookup d "description" = some v → v.truthy = true →
      Polymarket.normalize_market tz (.dict d) Option.none = .ok m →
        m.rules = v ∧ m.metadata.description = v)
    ∧ (∀ d v m, dlookup d "category" = some v → v.truthy = true →
      Polymarket.normalize_market tz (.dict d) Option.none = .ok m → m.metadata.category = v)
    ∧ (∀ m, Kalshi.normalize_market tz
        (.dict [("ticker", .str "A"), ("event_ticker", .str "B")]) = .ok m →
        m.market_id = "A") := by
  refine ⟨?_, ?_, ?_, ?_, ?_, ?_, ?_, ?_, ?_⟩
  · intro d v m hl htr hok
    obtain ⟨rd, -, hm⟩ := kalshi_normalize_market_ok tz d m hok
    subst hm
    simp only [dget_dict, hl, Option.getD_some, pyOr_of_truthy _ _ htr]
  · intro d v m hl htr hok
    obtain ⟨rd, -, hm⟩ := kalshi_normalize_market_ok tz d m hok
    subst hm
    simp only [dget_dict, hl, Option.getD_some, pyOr_of_truthy _ _ htr]
  · intro d v m hl htr hok
    obtain ⟨rd, -, hm⟩ := kalshi_normalize_market_ok tz d m hok
    subst hm
    simp only [dget_dict, hl, Option.getD_some, pyOr_of_truthy _ _ htr]
  · intro d v m hl htr hok
    obtain ⟨rd, -, hm⟩ := kalshi_normalize_market_ok tz d m hok
    subst hm
    simp only [dget_dict, hl, Option.getD_some, pyOr_of_truthy _ _ htr]
  · intro d v m hl htr hok
    obtain ⟨rd, -, hm⟩ := polymarket_normalize_market_ok tz d m hok
    subst hm
    simp only [dget_dict, hl, Option.getD_some, pyOr_of_truthy _ _ htr]
  · intro d v m hl htr hok
    obtain ⟨rd, -, hm⟩ := polymarket_normalize_market_ok tz d m hok
    subst hm
    simp only [dget_dict, hl, Option.getD_some, pyOr_of_truthy _ _ htr]
  · intro d v m hl htr hok
    obtain ⟨rd, -, hm⟩ := polymarket_normalize_market_ok tz d m hok
    subst hm
    constructor <;>
      simp only [dget_dict, hl, Option.getD_some, pyOr_of_truthy _ _ htr]
  · intro d v m hl htr hok
    obtain ⟨rd, -, hm⟩ := polymarket_normalize_market_ok tz d m hok
    subst hm
    simp only [dget_dict, hl, Option.getD_some, pyOr_of_truthy _ _ htr]
  · intro m hok
    obtain ⟨rd, -, hm⟩ := kalshi_normalize_market_ok tz _ m hok
    subst hm
    rfl

/-- Concrete payload for the C6 witness. -/
def c6Payload : PyVal := .dict [("ticker", .str "A"), ("event_ticker", .str "B")]

/-- Normalized form of `c6Payload` under the Kalshi client. -/
def c6Market : Market := (Kalshi.normalize_market 0 c6Payload).toOption.getD emptyMarket

/-- C6 witness: the payload with both ticker=A and event_ticker=B
normalizes to market id A. -/
theorem field_priority_first_candidate_wins_witness : c6Market.market_id = "A" :=
  (field_priority_first_candidate_wins 0).2.2.2.2.2.2.2.2 c6Market rfl

/-- C10: every market produced by a normalization or a full pagination run
of either client carries that client's fixed exchange name, and the market
id is the string coercion of the resolved raw identifier — the empty
string when every candidate id key is absent. -/
theorem exchange_tag_and_market_id (tz : ℤ) :
    (∀ d m, Kalshi.normalize_market tz d = .ok m → m.exchange = "kalshi")
    ∧ (∀ d ev m, Polymarket.normalize_market tz d ev = .ok m → m.exchange = "polymarket")
    ∧ (∀ limit mp script ms, Kalshi.fetch_all_markets tz limit mp script = some (.ok ms) →
        ∀ m ∈ ms, m.exchange = "kalshi")
    ∧ (∀ limit mp ps script ms,
        Polymarket.fetch_all_markets tz limit mp ps script = some (.ok ms) →
        ∀ m ∈ ms, m.exchange = "polymarket")
    ∧ (∀ d m, dlookup d "ticker" = Option.none → dlookup d "event_ticker" = Option.none →
        dlookup d "market_id" = Option.none → dlookup d "id" = Option.none →
        dlookup d "event_id" = Option.none →
        Kalshi.normalize_market tz (.dict d) = .ok m → m.market_id = "")
    ∧ (∀ d m, dlookup d "slug" = Option.none → dlookup d "condition_id" = Option.none →
        dlookup d "conditionId" = Option.none → dlookup d "token_id" = Option.none →
        dlookup d "id" = Option.none → dlookup d "market_id" = Option.none →
        Polymarket.normalize_market tz (.dict d) Option.none = .ok m →
        m.market_id = "") := by
  refine ⟨kalshi_normalize_exchange tz, polymarket_normalize_exchange tz, ?_, ?_, ?_, ?_⟩
  · intro limit mp script ms h
    exact kalshi_fetch_exchange_aux tz limit mp script [] 0 ms
      (fun m hm => absurd hm (List.not_mem_nil m)) h
  · intro limit mp ps script ms h
    exact polymarket_fetch_exchange_aux tz limit mp ps script [] 0 ms
      (fun m hm => absurd hm (List.not_mem_nil m)) h
  · intro d m h1 h2 h3 h4 h5 hok
    obtain ⟨rd, -, hm⟩ := kalshi_normalize_market_ok tz d m hok
    subst hm
    simp only [dget_dict, dgetD_dict, h1, h2, h3, h4, h5, Option.getD_none]
    rfl
  · intro d m h1 h2 h3 h4 h5 h6 hok
    obtain ⟨rd, -, hm⟩ := polymarket_normalize_market_ok tz d m hok
    subst hm
    simp only [dget_dict, h1, h2, h3, h4, h5, h6, Option.getD_none]
    rfl

/-- Fully-empty Kalshi payload normalized. -/
def c10K : Market := (Kalshi.normalize_market 0 (.dict [])).toOption.getD emptyMarket

/-- Fully-empty Polymarket payload normalized. -/
def c10P : Market :=
  (Polymarket.normalize_market 0 (.dict []) Option.none).toOption.getD emptyMarket

/-- C10 witness: both normalizers on an empty payload give the fixed
exchange tag and the empty-string market id. -/
theorem exchange_tag_and_market_id_witness :
    c10K.exchange = "kalshi" ∧ c10K.market_id = ""
    ∧ c10P.exchange = "polymarket" ∧ c10P.market_id = "" :=
  ⟨(exchange_tag_and_market_id 0).1 (.dict []) c10K rfl,
   (exchange_tag_and_market_id 0).2.2.2.2.1 [] c10K rfl rfl rfl rfl rfl rfl,
   (exchange_tag_and_market_id 0).2.1 (.dict []) Option.none c10P rfl,
   (exchange_tag_and_market_id 0).2.2.2.2.2 [] c10P rfl rfl rfl rfl rfl rfl rfl⟩

/-- C3: when the first page succeeds with at least one market (and the
pagination would continue: a live cursor for Kalshi, a full page for
Polymarket) and the next request fails non-recoverably, `fetch_all_markets`
returns the accumulated markets without raising; when the first request
itself fails with nothing accumulated, the typed error is raised. -/
theorem partial_failure_policy (tz : ℤ) :
    (∀ pg pms st tail, Kalshi.pageMarkets tz pg = .ok pms → pms ≠ [] →
      pg.cursor.truthy = true → st ≠ some 429 →
      Kalshi.fetch_all_markets tz Option.none Option.none (.ok pg :: .exn st :: tail) =
        some (.ok pms))
    ∧ (∀ st tail, st ≠ some 429 →
      Kalshi.fetch_all_markets tz Option.none Option.none (.exn st :: tail) =
        some (.error ⟨"Failed to fetch Kalshi markets"⟩))
    ∧ (∀ resp pms tail (n : ℕ), Polymarket.pageMarkets tz Option.none 0 resp = .ok pms →
      pms.length = n → n ≠ 0 →
      Polymarket.fetch_all_markets tz Option.none Option.none (n : ℤ)
        (.ok resp :: .exn :: tail) = some (.ok pms))
    ∧ (∀ (ps : ℤ) tail, Polymarket.fetch_all_markets tz Option.none Option.none ps
        (.exn :: tail) = some (.error ⟨"Failed to fetch Polymarket markets"⟩)) := by
  refine ⟨?_, ?_, ?_, ?_⟩
  · intro pg pms st tail hpm hne hcur hst
    unfold Kalshi.fetch_all_markets
    rw [kalshi_step_ok tz Option.none Option.none pg _ [] 0 pms rfl rfl hpm,
      if_neg (by simp [hcur, List.isEmpty_iff, hne]), List.nil_append,
      kalshi_step_exn tz Option.none Option.none st tail pms (0 + 1) rfl rfl hst,
      if_pos (by simp [List.isEmpty_iff, hne])]
  · intro st tail hst
    unfold Kalshi.fetch_all_markets
    rw [kalshi_step_exn tz Option.none Option.none st tail [] 0 rfl rfl hst,
      if_neg (by simp)]
  · intro resp pms tail n hpm hlen hn0
    have hne : pms ≠ [] := by
      intro h0
      rw [h0] at hlen
      exact hn0 hlen.symm
    unfold Polymarket.fetch_all_markets
    rw [polymarket_step_ok tz Option.none Option.none (n : ℤ) resp _ [] 0 pms rfl rfl hpm,
      if_neg (by simp [List.isEmpty_iff, hne])]
    simp only [limitHit_none, Bool.false_eq_true, if_false, List.nil_append]
    rw [if_neg (by simp [hlen, Polymarket.pageLimitOf]),
      polymarket_step_exn tz Option.none Option.none (n : ℤ) tail pms (0 + 1) rfl rfl,
      if_pos (by simp [List.isEmpty_iff, hne])]
  · intro ps tail
    unfold Polymarket.fetch_all_markets
    rw [polymarket_step_exn tz Option.none Option.none ps tail [] 0 rfl rfl,
      if_neg (by simp)]

/-- Concrete Kalshi page payload for the C3 witness. -/
def c3KPage : Kalshi.Page := ⟨.list [.dict [("ticker", .str "T")]], .str "c"⟩

/-- Normalized market of the C3 Kalshi page. -/
def c3KM : Market :=
  (Kalshi.normalize_market 0 (.dict [("ticker", .str "T")])).toOption.getD emptyMarket

/-- Concrete Polymarket events response for the C3 witness. -/
def c3PResp : PyVal := .list [.dict [("slug", .str "s")]]

/-- Normalized market of the C3 Polymarket response. -/
def c3PM : Market :=
  (Polymarket.normalize_market 0 (.dict [("slug", .str "s")]) Option.none).toOption.getD
    emptyMarket

/-- C3 witness: page 1 with one record followed by a non-recoverable error
returns the one record for both clients; a first-page error raises the
typed error for both clients. -/
theorem partial_failure_policy_witness :
    Kalshi.fetch_all_markets 0 Option.none Option.none [.ok c3KPage, .exn (some 500)] =
      some (.ok [c3KM])
    ∧ Kalshi.fetch_all_markets 0 Option.none Option.none [.exn (some 500)] =
      some (.error ⟨"Failed to fetch Kalshi markets"⟩)
    ∧ Polymarket.fetch_all_markets 0 Option.none Option.none 1 [.ok c3PResp, .exn] =
      some (.ok [c3PM])
    ∧ Polymarket.fetch_all_markets 0 Option.none Option.none 7 [.exn] =
      some (.error ⟨"Failed to fetch Polymarket markets"⟩) :=
  ⟨(partial_failure_policy 0).1 c3KPage [c3KM] (some 500) [] rfl
      (by simp) rfl (by decide),
   (partial_failure_policy 0).2.1 (some 500) [] (by decide),
   (partial_failure_policy 0).2.2.1 c3PResp [c3PM] [] 1 rfl rfl (by decide),
   (partial_failure_policy 0).2.2.2 7 []⟩

/-- Kalshi page of ten markets with a live cursor (an upstream that
ignores the requested page size). -/
def c4KPage : Kalshi.Page :=
  ⟨.list (List.replicate 10 (.dict [("ticker", .str "T")])), .str "c"⟩

/-- Polymarket response of ten market-events (an upstream that ignores the
requested page size). -/
def c4PResp : PyVal := .list (List.replicate 10 (.dict [("slug", .str "s")]))

/-- C4 counterexample: against an upstream returning pages of 10 records
regardless of the requested size, `fetch_all_markets(limit=15)` returns 20
records for Kalshi (the limit is only checked between pages and the result
is never trimmed) and 10 for Polymarket (the short page is taken as the end
of data), not 15. -/
theorem limit_exactness_counterexample :
    (Kalshi.fetch_all_markets 0 (some 15) Option.none
        [.ok c4KPage, .ok c4KPage, .ok c4KPage]).map (Except.map List.length) =
      some (.ok 20)
    ∧ (Polymarket.fetch_all_markets 0 (some 15) Option.none 100
        [.ok c4PResp, .ok c4PResp, .ok c4PResp]).map (Except.map List.length) =
      some (.ok 10) :=
  ⟨rfl, rfl⟩

/-- C4 (amended): with `limit=15` the result has length exactly 15 when the
upstream honors the requested per-page limit — the first page then carries
exactly the 15 requested records and the call stops (Kalshi requests the
full remaining 15 when no page size is given; Polymarket requests
`min(15, page_size)`).  With an upstream that returns 10 records per page
regardless, Kalshi returns 20 and Polymarket 10 (see the
counterexample). -/
theorem limit_exactness_amended (tz : ℤ) :
    (∀ pg pms tail, Kalshi.pageMarkets tz pg = .ok pms → pms.length = 15 →
      Kalshi.fetch_all_markets tz (some 15) Option.none (.ok pg :: tail) = some (.ok pms))
    ∧ (∀ resp pms tail, Polymarket.pageMarkets tz (some 15) 0 resp = .ok pms →
      pms.length = 15 →
      Polymarket.fetch_all_markets tz (some 15) Option.none 100 (.ok resp :: tail) =
        some (.ok pms)) := by
  constructor
  · intro pg pms tail hpm hlen
    unfold Kalshi.fetch_all_markets
    rw [kalshi_step_ok tz (some 15) Option.none pg tail [] 0 pms rfl rfl hpm]
    by_cases hc : (¬ pg.cursor.truthy = true ∨ pms.isEmpty = true)
    · rw [if_pos hc, List.nil_append]
    · rw [if_neg hc, List.nil_append,
        kalshi_stop_limit tz (some 15) Option.none tail pms (0 + 1)
          (by rw [hlen]; rfl)]
  · intro resp pms tail hpm hlen
    have hne : pms ≠ [] := by
      intro h0
      rw [h0] at hlen
      cases hlen
    unfold Polymarket.fetch_all_markets
    rw [polymarket_step_ok tz (some 15) Option.none 100 resp tail [] 0 pms rfl rfl hpm,
      if_neg (by simp [List.isEmpty_iff, hne])]
    simp only [List.nil_append]
    rw [if_pos (by rw [hlen]; rfl)]
    have htrim : Polymarket.trimToLimit (some 15) pms = pms := by
      show pms.take ((15 : ℤ).toNat) = pms
      rw [show ((15 : ℤ).toNat) = 15 from rfl, ← hlen, List.take_length]
    rw [htrim]

/-- Kalshi page carrying exactly the 15 requested markets and a live
cursor. -/
def c4WKPage : Kalshi.Page :=
  ⟨.list (List.replicate 15 (.dict [("ticker", .str "T")])), .str "c"⟩

/-- Polymarket response carrying exactly the 15 requested market-events. -/
def c4WPResp : PyVal := .list (List.replicate 15 (.dict [("slug", .str "s")]))

/-- C4 witness: an upstream honoring the requested page limit gives exactly
15 records under `limit=15` for both clients. -/
theorem limit_exactness_amended_witness :
    Kalshi.fetch_all_markets 0 (some 15) Option.none [.ok c4WKPage] =
      some (.ok (List.replicate 15 c3KM))
    ∧ Polymarket.fetch_all_markets 0 (some 15) Option.none 100 [.ok c4WPResp] =
      some (.ok (List.replicate 15 c3PM)) :=
  ⟨(limit_exactness_amended 0).1 c4WKPage (List.replicate 15 c3KM) [] rfl rfl,
   (limit_exactness_amended 0).2 c4WPResp (List.replicate 15 c3PM) [] rfl rfl⟩

/-- Polymarket response of three market-events. -/
def c5Resp3 : PyVal := .list (List.replicate 3 (.dict [("slug", .str "s")]))

/-- C5 counterexample: a zero-record page is not the sole natural-end stop
signal for Polymarket offset pagination — a page with 3 records (fewer than
the requested 100) stops the run even though the next page holds 10
records, so the call returns 3 records instead of continuing to the
union. -/
theorem natural_end_counterexample :
    (Polymarket.fetch_all_markets 0 Option.none Option.none 100
        [.ok c5Resp3, .ok c4PResp]).map (Except.map List.length) = some (.ok 3)
    ∧ (Polymarket.pageMarkets 0 Option.none 3 c4PResp).map List.length = .ok 10 :=
  ⟨rfl, rfl⟩

/-- C5 (amended): where Kalshi exposes a cursor, its absence is the
authoritative stop signal — two pages with the second cursor absent return
exactly the union of both pages and issue no third request; Polymarket
offset pagination stops naturally when a page yields zero records or fewer
records than the requested page limit, returning what was accumulated. -/
theorem pagination_stop_signals_amended (tz : ℤ) :
    (∀ p1 p2 ms1 ms2 tail, Kalshi.pageMarkets tz p1 = .ok ms1 → ms1 ≠ [] →
      p1.cursor.truthy = true → Kalshi.pageMarkets tz p2 = .ok ms2 →
      p2.cursor.truthy = false →
      Kalshi.fetch_all_markets tz Option.none Option.none (.ok p1 :: .ok p2 :: tail) =
        some (.ok (ms1 ++ ms2)))
    ∧ (∀ resp pms (ps : ℤ) tail, Polymarket.pageMarkets tz Option.none 0 resp = .ok pms →
      (pms.length : ℤ) < ps →
      Polymarket.fetch_all_markets tz Option.none Option.none ps (.ok resp :: tail) =
        some (.ok pms)) := by
  constructor
  · intro p1 p2 ms1 ms2 tail h1 hne hc1 h2 hc2
    unfold Kalshi.fetch_all_markets
    rw [kalshi_step_ok tz Option.none Option.none p1 _ [] 0 ms1 rfl rfl h1,
      if_neg (by simp [hc1, List.isEmpty_iff, hne]), List.nil_append,
      kalshi_step_ok tz Option.none Option.none p2 tail ms1 (0 + 1) ms2 rfl rfl h2,
      if_pos (Or.inl (by simp [hc2]))]
  · intro resp pms ps tail hpm hshort
    unfold Polymarket.fetch_all_markets
    rw [polymarket_step_ok tz Option.none Option.none ps resp tail [] 0 pms rfl rfl hpm]
    by_cases he : pms.isEmpty = true
    · rw [if_pos he, List.isEmpty_iff.mp he]
    · rw [if_neg he]
      simp only [limitHit_none, Bool.false_eq_true, if_false, List.nil_append]
      rw [show Polymarket.pageLimitOf Option.none ps List.nil.length = ps from rfl,
        if_pos hshort]

/-- Kalshi page whose cursor is absent. -/
def c5KPage2 : Kalshi.Page := ⟨.list [.dict [("ticker", .str "T")]], .none⟩

/-- C5 witness: the two-page cursor scenario returns the union of both
pages for Kalshi, and a short (3 of 100 requested) page stops Polymarket
with the 3 accumulated records. -/
theorem pagination_stop_signals_amended_witness :
    Kalshi.fetch_all_markets 0 Option.none Option.none [.ok c3KPage, .ok c5KPage2] =
      some (.ok [c3KM, c3KM])
    ∧ Polymarket.fetch_all_markets 0 Option.none Option.none 100 [.ok c5Resp3] =
      some (.ok (List.replicate 3 c3PM)) :=
  ⟨(pagination_stop_signals_amended 0).1 c3KPage c5KPage2 [c3KM] [c3KM] [] rfl
      (by simp) rfl rfl rfl,
   (pagination_stop_signals_amended 0).2 c5Resp3 (List.replicate 3 c3PM) 100 [] rfl
      (by decide)⟩

theorem isOk_exists {ε α : Type} (r : Except ε α) (h : r.isOk = true) :
    ∃ y, r = .ok y := by
  cases r with
  | error e => cases h
  | ok y => exact ⟨y, rfl⟩

/-- Whether a raw level is a dict whose price and quantity values coerce to
float in the plain-Kalshi shape. -/
def levelFloatable (L : PyVal) : Bool :=
  L.isDict && (pyFloat (L.dgetD "price" (.int 0))).isOk
    && (pyFloat (L.dgetD "quantity" (L.dgetD "size" (.int 0)))).isOk

/-- Whether a raw level is a dict whose price and size values coerce to
float in the Polymarket shape. -/
def clobFloatable (L : PyVal) : Bool :=
  L.isDict && (pyFloat (L.dgetD "price" (L.dgetD "px" (.int 0)))).isOk
    && (pyFloat (L.dgetD "size" (L.dgetD "quantity" (L.dgetD "qty" (.int 0))))).isOk

theorem simpleEntry_isOk (L : PyVal) (h : levelFloatable L = true) :
    (Kalshi.simpleEntry L).isOk = true := by
  unfold levelFloatable at h
  simp only [Bool.and_eq_true] at h
  obtain ⟨⟨hd, hp⟩, hq⟩ := h
  obtain ⟨p, hp⟩ := isOk_exists _ hp
  obtain ⟨q, hq⟩ := isOk_exists _ hq
  cases L <;> simp [PyVal.isDict] at hd
  simp [Kalshi.simpleEntry, hp, hq, bind, Except.bind, pure, Except.pure, Except.isOk,
    Except.toBool]

theorem clobEntry_isOk (L : PyVal) (h : clobFloatable L = true) :
    (Polymarket.clobEntry L).isOk = true := by
  unfold clobFloatable at h
  simp only [Bool.and_eq_true] at h
  obtain ⟨⟨hd, hp⟩, hq⟩ := h
  obtain ⟨p, hp⟩ := isOk_exists _ hp
  obtain ⟨q, hq⟩ := isOk_exists _ hq
  cases L <;> simp [PyVal.isDict] at hd
  simp [Polymarket.clobEntry, hp, hq, bind, Except.bind, pure, Except.pure, Except.isOk,
    Except.toBool]

/-- C7 counterexample: a raw book whose single bid level carries a null
price makes both field extractors raise a `TypeError` (from `float(None)`)
instead of degrading to null or empty fields. -/
theorem extractor_never_raises_counterexample :
    Kalshi.normalize_orderbook 0 "m"
      (.dict [("bids", .list [.dict [("price", PyVal.none)]]), ("asks", .list [])]) =
      .error .typeError
    ∧ Polymarket.normalize_orderbook 0 "m"
      (.dict [("bids", .list [.dict [("price", PyVal.none)]]), ("asks", .list [])]) =
      .error .typeError :=
  ⟨rfl, rfl⟩

/-- C7 (amended): the market extractors of both clients never raise on a
dict payload with no recognized fields, producing a market with
empty/default metadata; the order-book extractors never raise on a plain
bids/asks book all of whose levels are dicts with float-coercible price and
quantity values — but a level value that `float()` rejects (for example a
null price) propagates the exception instead of degrading. -/
theorem extractor_null_tolerance_amended (tz : ℤ) :
    (∀ d : List (String × PyVal), (∀ k, dlookup d k = Option.none) →
      Kalshi.normalize_market tz (.dict d) =
        .ok { market_id := "", name := .str "", rules := .str "",
              metadata :=
                { resolve_date := Option.none, resolve_time := Option.none,
                  category := .none, subcategory := .none, tags := .none,
                  description := .none, image_url := .none, liquidity := .none,
                  volume := .none,
                  extra := .dict
                    [("status", .none), ("yes_bid", .none), ("yes_ask", .none),
                     ("no_bid", .none), ("no_ask", .none), ("last_price", .none),
                     ("previous_price", .none), ("event_ticker", .none),
                     ("series_ticker", .none)] }
              exchange := "kalshi", extra := .dict d })
    ∧ (∀ d : List (String × PyVal), (∀ k, dlookup d k = Option.none) →
      Polymarket.normalize_market tz (.dict d) Option.none =
        .ok { market_id := "", name := .str "", rules := .str "",
              metadata :=
                { resolve_date := Option.none, resolve_time := Option.none,
                  category := .none, subcategory := .none, tags := .none,
                  description := .none, image_url := .none, liquidity := .none,
                  volume := .none,
                  extra := .dict
                    [("outcomes", .none), ("active", .none), ("closed", .none),
                     ("new", .none), ("end_date_iso", .none), ("start_date_iso", .none),
                     ("clobTokenIds", .none), ("conditionId", .none),
                     ("token_id", .none)] }
              exchange := "polymarket", extra := .dict (dictMerge d d) })
    ∧ (∀ mid (bs as_ : List PyVal), (∀ L ∈ bs, levelFloatable L = true) →
      (∀ L ∈ as_, levelFloatable L = true) →
      (Kalshi.normalize_orderbook tz mid
        (.dict [("bids", .list bs), ("asks", .list as_)])).isOk = true)
    ∧ (∀ mid (bs as_ : List PyVal), (∀ L ∈ bs, clobFloatable L = true) →
      (∀ L ∈ as_, clobFloatable L = true) →
      (Polymarket.normalize_orderbook tz mid
        (.dict [("bids", .list bs), ("asks", .list as_)])).isOk = true) := by
  refine ⟨?_, ?_, ?_, ?_⟩
  · intro d h
    unfold Kalshi.normalize_market
    rw [if_pos (show (PyVal.dict d).isDict = true from rfl)]
    simp only [dget_dict, dgetD_dict, h, Option.getD_none]
    rfl
  · intro d h
    unfold Polymarket.normalize_market
    rw [if_pos (show (PyVal.dict d).isDict = true from rfl)]
    simp only [bind, Except.bind, pure, Except.pure, dget_dict, dgetD_dict, h,
      Option.getD_none]
    rfl
  · intro mid bs as_ hb ha
    obtain ⟨ebs, hebs⟩ := isOk_exists _
      (mapExcept_isOk Kalshi.simpleEntry bs fun L hL => simpleEntry_isOk L (hb L hL))
    obtain ⟨eas, heas⟩ := isOk_exists _
      (mapExcept_isOk Kalshi.simpleEntry as_ fun L hL => simpleEntry_isOk L (ha L hL))
    unfold Kalshi.normalize_orderbook Kalshi.plainSides
    simp only [bind, Except.bind, pure, Except.pure]
    simp only [show ∀ x y : PyVal, Kalshi.obData (.dict [("bids", x), ("asks", y)]) =
        .dict [("bids", x), ("asks", y)] from fun x y => rfl]
    simp only [show ∀ x y : PyVal,
        pyContains "yes" (PyVal.dict [("bids", x), ("asks", y)]) = .ok false from
        fun x y => rfl,
      show ∀ x y : PyVal,
        pyContains "no" (PyVal.dict [("bids", x), ("asks", y)]) = .ok false from
        fun x y => rfl,
      Bool.false_eq_true, and_self, if_false]
    simp only [show ∀ x y : PyVal,
        pyGet (PyVal.dict [("bids", x), ("asks", y)]) "bids" (.list []) = .ok x from
        fun x y => rfl,
      show ∀ x y : PyVal,
        pyGet (PyVal.dict [("bids", x), ("asks", y)]) "asks" (.list []) = .ok y from
        fun x y => rfl,
      show ∀ l : List PyVal, pyIter (.list l) = .ok l from fun l => rfl]
    simp only [hebs, heas]
    simp only [show ∀ x y : PyVal,
        obTimestamp tz (PyVal.dict [("bids", x), ("asks", y)]) = .ok Option.none from
        fun x y => rfl]
    rfl
  · intro mid bs as_ hb ha
    obtain ⟨ebs, hebs⟩ := isOk_exists _
      (mapExcept_isOk Polymarket.clobEntry bs fun L hL => clobEntry_isOk L (hb L hL))
    obtain ⟨eas, heas⟩ := isOk_exists _
      (mapExcept_isOk Polymarket.clobEntry as_ fun L hL => clobEntry_isOk L (ha L hL))
    unfold Polymarket.normalize_orderbook
    simp only [bind, Except.bind, pure, Except.pure]
    simp only [show ∀ x y : PyVal,
        (PyVal.dict [("bids", x), ("asks", y)]).hasKey "data" = false from fun x y => rfl,
      show ∀ x y : PyVal,
        (PyVal.dict [("bids", x), ("asks", y)]).hasKey "buy" = false from fun x y => rfl,
      show ∀ x y : PyVal,
        (PyVal.dict [("bids", x), ("asks", y)]).hasKey "sell" = false from fun x y => rfl,
      Bool.false_eq_true, and_false, if_false]
    simp only [show ∀ x y : PyVal,
        pyGet (PyVal.dict [("bids", x), ("asks", y)]) "bids" (.list []) = .ok x from
        fun x y => rfl,
      show ∀ x y : PyVal,
        pyGet (PyVal.dict [("bids", x), ("asks", y)]) "asks" (.list []) = .ok y from
        fun x y => rfl,
      show ∀ l : List PyVal, pyIter (.list l) = .ok l from fun l => rfl]
    simp only [hebs, heas]
    simp only [show ∀ x y : PyVal,
        obTimestamp tz (PyVal.dict [("bids", x), ("asks", y)]) = .ok Option.none from
        fun x y => rfl]
    rfl

/-- Well-formed concrete level for the C7 witness. -/
def c7Level : PyVal := .dict [("price", .float (mkRat 1 4)), ("quantity", .int 2)]

/-- C7 witness: an empty payload normalizes to default metadata for both
market extractors, and a well-formed one-level book normalizes without
raising for both order-book extractors. -/
theorem extractor_null_tolerance_amended_witness :
    (Kalshi.normalize_market 0 (.dict [])).isOk = true
    ∧ (Polymarket.normalize_market 0 (.dict []) Option.none).isOk = true
    ∧ (Kalshi.normalize_orderbook 0 "m"
        (.dict [("bids", .list [c7Level]), ("asks", .list [])])).isOk = true
    ∧ (Polymarket.normalize_orderbook 0 "m"
        (.dict [("bids", .list [c7Level]), ("asks", .list [])])).isOk = true :=
  ⟨by rw [(extractor_null_tolerance_amended 0).1 [] fun k => rfl]; rfl,
   by rw [(extractor_null_tolerance_amended 0).2.1 [] fun k => rfl]; rfl,
   (extractor_null_tolerance_amended 0).2.2.1 "m" [c7Level] []
     (fun L hL => by rw [List.mem_singleton.mp hL]; rfl)
     (fun L hL => absurd hL (List.not_mem_nil L)),
   (extractor_null_tolerance_amended 0).2.2.2 "m" [c7Level] []
     (fun L hL => by rw [List.mem_singleton.mp hL]; rfl)
     (fun L hL => absurd hL (List.not_mem_nil L))⟩

/-- C9 counterexample: with a host timezone of UTC+1 (offset 3600), the
ISO string 1970-01-05T00:00:00Z and the epoch value 345600 denote the same
instant yet normalize to different time components, because
`fromisoformat` keeps the UTC wall clock while `fromtimestamp` renders the
local wall clock. -/
theorem timestamp_forms_counterexample :
    Kalshi.parseExpiration 3600 (.str "1970-01-05T00:00:00Z") =
      .ok (some "1970-01-05", some "00:00:00")
    ∧ Kalshi.parseExpiration 3600 (.int 345600) =
      .ok (some "1970-01-05", some "01:00:00")
    ∧ ((some "00:00:00" : Option String) ≠ some "01:00:00") :=
  ⟨rfl, rfl, by decide⟩

/-- C9 (amended): when the host local timezone is UTC (offset 0), an ISO
string with trailing Z and a nonzero epoch-second value denoting the same
instant normalize to the same date and time components in both clients;
with a nonzero local offset the components differ (see the
counterexample).  The epoch value 0 is excluded because it is falsy in
Python: the truthiness gate skips it entirely and both clients yield null
components for it, even though the ISO form of the same instant parses
(last conjunct).  Parse failure never raises: it degrades to null
components in the Kalshi client and preserves the raw string as the date
in the Polymarket client. -/
theorem timestamp_forms_agree_amended (s : String) (t : ℤ) (dt : PyDateTime)
    (hs : pyFromisoformat (pyReplaceZ s) = .ok dt)
    (hoff : dt.tzOffset = some 0)
    (hciv : civilOfEpoch t = { dt with tzOffset := Option.none })
    (ht0 : t ≠ 0)
    (hrange : t.natAbs < 2 ^ 63)
    (hyr : 1 ≤ dt.year ∧ dt.year ≤ 9999) :
    (Kalshi.parseExpiration 0 (.str s) = .ok (some (fmtDate dt), some (fmtTime dt))
      ∧ Kalshi.parseExpiration 0 (.int t) = .ok (some (fmtDate dt), some (fmtTime dt))
      ∧ Polymarket.parseResolution 0 (.str s) = .ok (some (fmtDate dt), some (fmtTime dt))
      ∧ Polymarket.parseResolution 0 (.int t) = .ok (some (fmtDate dt), some (fmtTime dt)))
    ∧ (∀ (tz : ℤ) (s2 : String), s2 ≠ "" →
      pyFromisoformat (pyReplaceZ s2) = .error .valueError →
      Kalshi.parseExpiration tz (.str s2) = .ok (Option.none, Option.none)
      ∧ Polymarket.parseResolution tz (.str s2) = .ok (some s2, Option.none))
    ∧ (∀ tz : ℤ,
      Kalshi.parseExpiration tz (.int 0) = .ok (Option.none, Option.none)
      ∧ Polymarket.parseResolution tz (.int 0) = .ok (Option.none, Option.none)
      ∧ Kalshi.parseExpiration 0 (.str "1970-01-01T00:00:00Z") =
          .ok (some "1970-01-01", some "00:00:00")) := by
  have hsne : s ≠ "" := by
    intro h0
    rw [h0] at hs
    cases hs
  have hstr : tsTryBody 0 (.str s) = .ok (some (fmtDate dt), some (fmtTime dt)) := by
    unfold tsTryBody
    simp only [bind, Except.bind, pure, Except.pure, hs]
  have hft : pyFromtimestamp 0 (t : ℚ) = .ok { dt with tzOffset := Option.none } := by
    unfold pyFromtimestamp
    simp only [Int.floor_intCast]
    rw [if_neg (Nat.not_le.mpr hrange), add_zero, hciv]
    rw [if_pos (show (1 : ℤ) ≤ dt.year ∧ dt.year ≤ 9999 from hyr)]
  have hint : tsTryBody 0 (.int t) = .ok (some (fmtDate dt), some (fmtTime dt)) := by
    unfold tsTryBody
    simp only [bind, Except.bind, pure, Except.pure, hft]
    rfl
  have htrue : PyVal.truthy (.str s) = true := by
    simp [PyVal.truthy, hsne]
  have htrueInt : PyVal.truthy (.int t) = true := by
    simp [PyVal.truthy, ht0]
  refine ⟨?_, ?_, ?_⟩
  · refine ⟨?_, ?_, ?_, ?_⟩
    · unfold Kalshi.parseExpiration
      rw [if_pos htrue, hstr]
    · unfold Kalshi.parseExpiration
      rw [if_pos htrueInt, hint]
    · unfold Polymarket.parseResolution
      rw [if_pos htrue, hstr]
    · unfold Polymarket.parseResolution
      rw [if_pos htrueInt, hint]
  · intro tz s2 hs2 herr
    have htr2 : PyVal.truthy (.str s2) = true := by
      simp [PyVal.truthy, hs2]
    have hbody : tsTryBody tz (.str s2) = .error .valueError := by
      unfold tsTryBody
      simp only [bind, Except.bind, pure, Except.pure, herr]
    constructor
    · unfold Kalshi.parseExpiration
      rw [if_pos htr2, hbody]
      rfl
    · unfold Polymarket.parseResolution
      rw [if_pos htr2, hbody]
      rfl
  · intro tz
    exact ⟨rfl, rfl, rfl⟩

/-- C9 witness: at UTC offset 0, the ISO string and the epoch value of
2024-12-31T23:59:59Z give identical components in both clients, an
unparsable string degrades without raising, and the falsy epoch value 0
yields null components while its ISO form parses. -/
theorem timestamp_forms_agree_amended_witness :
    Kalshi.parseExpiration 0 (.str "2024-12-31T23:59:59Z") =
      .ok (some "2024-12-31", some "23:59:59")
    ∧ Kalshi.parseExpiration 0 (.int 1735689599) =
      .ok (some "2024-12-31", some "23:59:59")
    ∧ Polymarket.parseResolution 0 (.int 1735689599) =
      .ok (some "2024-12-31", some "23:59:59")
    ∧ Kalshi.parseExpiration 5 (.str "not-a-date") = .ok (Option.none, Option.none)
    ∧ Polymarket.parseResolution 5 (.str "not-a-date") =
      .ok (some "not-a-date", Option.none)
    ∧ Kalshi.parseExpiration 0 (.int 0) = .ok (Option.none, Option.none)
    ∧ Polymarket.parseResolution 0 (.int 0) = .ok (Option.none, Option.none)
    ∧ Kalshi.parseExpiration 0 (.str "1970-01-01T00:00:00Z") =
      .ok (some "1970-01-01", some "00:00:00") :=
  ⟨((timestamp_forms_agree_amended "2024-12-31T23:59:59Z" 1735689599
      ⟨2024, 12, 31, 23, 59, 59, some 0⟩ rfl rfl rfl (by decide) (by decide)
      (by decide)).1).1,
   ((timestamp_forms_agree_amended "2024-12-31T23:59:59Z" 1735689599
      ⟨2024, 12, 31, 23, 59, 59, some 0⟩ rfl rfl rfl (by decide) (by decide)
      (by decide)).1).2.1,
   ((timestamp_forms_agree_amended "2024-12-31T23:59:59Z" 1735689599
      ⟨2024, 12, 31, 23, 59, 59, some 0⟩ rfl rfl rfl (by decide) (by decide)
      (by decide)).1).2.2.2,
   ((timestamp_forms_agree_amended "2024-12-31T23:59:59Z" 1735689599
      ⟨2024, 12, 31, 23, 59, 59, some 0⟩ rfl rfl rfl (by decide) (by decide)
      (by decide)).2.1 5 "not-a-date" (by decide) rfl).1,
   ((timestamp_forms_agree_amended "2024-12-31T23:59:59Z" 1735689599
      ⟨2024, 12, 31, 23, 59, 59, some 0⟩ rfl rfl rfl (by decide) (by decide)
      (by decide)).2.1 5 "not-a-date" (by decide) rfl).2,
   ((timestamp_forms_agree_amended "2024-12-31T23:59:59Z" 1735689599
      ⟨2024, 12, 31, 23, 59, 59, some 0⟩ rfl rfl rfl (by decide) (by decide)
      (by decide)).2.2 0).1,
   ((timestamp_forms_agree_amended "2024-12-31T23:59:59Z" 1735689599
      ⟨2024, 12, 31, 23, 59, 59, some 0⟩ rfl rfl rfl (by decide) (by decide)
      (by decide)).2.2 0).2.1,
   ((timestamp_forms_agree_amended "2024-12-31T23:59:59Z" 1735689599
      ⟨2024, 12, 31, 23, 59, 59, some 0⟩ rfl rfl rfl (by decide) (by decide)
      (by decide)).2.2 0).2.2⟩

/-- C8: on a rate limiter whose constructor parameters satisfy the
documented shape (nonnegative floor, floor at most ceiling, backoff factor
at least one, as the defaults 0.1, 60.0, 2.0 do), after n consecutive
`handle_rate_limit_error` calls on a fresh limiter the current delay equals
`min(min_delay * backoff_factor ^ n, max_delay)`, and `reset_delay` maps
any reachable delay (one at least the floor) to
`max(current_delay / backoff_factor, min_delay)`. -/
theorem rate_limiter_backoff_decay (p : RLParams) (hmin : 0 ≤ p.min_delay)
    (hmm : p.min_delay ≤ p.max_delay) (hf : 1 ≤ p.backoff_factor) :
    (∀ n : ℕ, delayAfterHandles p n = min (p.min_delay * p.backoff_factor ^ n) p.max_delay)
    ∧ (∀ c : ℚ, p.min_delay ≤ c →
        reset_delay p c = max (c / p.backoff_factor) p.min_delay) := by
  constructor
  · intro n
    induction n with
    | zero =>
      simp only [delayAfterHandles, Function.iterate_zero, id, rlInit, pow_zero, mul_one]
      exact (min_eq_left hmm).symm
    | succ n ih =>
      rw [delayAfterHandles, Function.iterate_succ_apply', ← delayAfterHandles, ih,
        handle_rate_limit_error]
      rcases le_total (p.min_delay * p.backoff_factor ^ n) p.max_delay with h | h
      · rw [min_eq_left h, pow_succ, ← mul_assoc]
      · rw [min_eq_right h]
        have hM : 0 ≤ p.max_delay := le_trans hmin hmm
        have h1 : p.max_delay ≤ p.max_delay * p.backoff_factor :=
          le_mul_of_one_le_right hM hf
        have h0 : 0 ≤ p.min_delay * p.backoff_factor ^ n := le_trans hM h
        have h2 : p.max_delay ≤ p.min_delay * p.backoff_factor ^ (n + 1) := by
          calc p.max_delay ≤ p.min_delay * p.backoff_factor ^ n := h
            _ ≤ p.min_delay * p.backoff_factor ^ n * p.backoff_factor :=
              le_mul_of_one_le_right h0 hf
            _ = p.min_delay * p.backoff_factor ^ (n + 1) := by ring
        rw [min_eq_right h1, min_eq_right h2]
  · intro c hc
    rw [reset_delay]
    rcases lt_or_le p.min_delay c with hgt | hle
    · rw [if_pos hgt]
    · have hceq : c = p.min_delay := le_antisymm hle hc
      rw [hceq, if_neg (lt_irrefl p.min_delay)]
      have : p.min_delay / p.backoff_factor ≤ p.min_delay := div_le_self hmin hf
      exact (max_eq_right this).symm

/-- C8 witness: the defaults 0.1, 60.0, 2.0 at n = 3 and at a reachable
delay 0.4. -/
theorem rate_limiter_backoff_decay_witness :
    delayAfterHandles ⟨1/10, 60, 2⟩ 3 = min ((1/10 : ℚ) * 2 ^ 3) 60
    ∧ reset_delay ⟨1/10, 60, 2⟩ (2/5) = max ((2/5 : ℚ) / 2) (1/10) :=
  ⟨(rate_limiter_backoff_decay ⟨1/10, 60, 2⟩ (by norm_num) (by norm_num) (by norm_num)).1 3,
   (rate_limiter_backoff_decay ⟨1/10, 60, 2⟩ (by norm_num) (by norm_num) (by norm_num)).2
     (2/5) (by norm_num)⟩

/-- C1: every order book produced by either normalization has bids
non-increasing by price between adjacent entries and asks non-decreasing by
price between adjacent entries, for every raw input whatsoever. -/
theorem orderbook_sort_invariant (tz : ℤ) (mid : String) (payload : PyVal)
    (book : OrderBook)
    (hk : Kalshi.normalize_orderbook tz mid payload = .ok book ∨
      Polymarket.normalize_orderbook tz mid payload = .ok book) :
    book.bids.Chain' (fun a b => b.price ≤ a.price) ∧
    book.asks.Chain' (fun a b => a.price ≤ b.price) := by
  rcases hk with hk | hk
  · unfold Kalshi.normalize_orderbook at hk
    simp only [bind, Except.bind, pure, Except.pure] at hk
    repeat' split at hk
    all_goals try exact absurd hk (fun h => Except.noConfusion h)
    all_goals cases hk
    all_goals exact ⟨sorted_bids_chain _, sorted_asks_chain _⟩
  · unfold Polymarket.normalize_orderbook at hk
    simp only [bind, Except.bind, pure, Except.pure] at hk
    repeat' split at hk
    all_goals try exact absurd hk (fun h => Except.noConfusion h)
    all_goals cases hk
    all_goals exact ⟨sorted_bids_chain _, sorted_asks_chain _⟩

/-- C2: on a dual-sided (yes/no) raw Kalshi book, every no-side bid with
extracted price p and quantity q yields an ask entry at price `1 - p` with
quantity q, every no-side ask yields a bid entry at `1 - p`, and yes-side
bids and asks map directly into the canonical bids and asks. -/
theorem kalshi_complementary_inversion (tz : ℤ) (mid : String) (payload : PyVal)
    (book : OrderBook)
    (hok : Kalshi.normalize_orderbook tz mid payload = .ok book)
    (hyes : pyContains "yes" (Kalshi.obData payload) = .ok true)
    (hno : pyContains "no" (Kalshi.obData payload) = .ok true) :
    (∀ ls, Kalshi.sideList (pyOr ((Kalshi.obData payload).dget "no") (.dict [])) "bids" = .ok ls →
      ∀ L ∈ ls, ∀ p q, L.isDict = true →
        pyFloat (L.dgetD "price" (L.dgetD "no_price" (.int 0))) = .ok p →
        pyFloat (L.dgetD "quantity" (L.dgetD "size" (.int 0))) = .ok q →
        ∃ e ∈ book.asks, e.price = 1 - p ∧ e.quantity = q)
    ∧ (∀ ls, Kalshi.sideList (pyOr ((Kalshi.obData payload).dget "no") (.dict [])) "asks" = .ok ls →
      ∀ L ∈ ls, ∀ p q, L.isDict = true →
        pyFloat (L.dgetD "price" (L.dgetD "no_price" (.int 0))) = .ok p →
        pyFloat (L.dgetD "quantity" (L.dgetD "size" (.int 0))) = .ok q →
        ∃ e ∈ book.bids, e.price = 1 - p ∧ e.quantity = q)
    ∧ (∀ ls, Kalshi.sideList (pyOr ((Kalshi.obData payload).dget "yes") (.dict [])) "bids" = .ok ls →
      ∀ L ∈ ls, ∀ p q, L.isDict = true →
        pyFloat (L.dgetD "price" (L.dgetD "yes_price" (.int 0))) = .ok p →
        pyFloat (L.dgetD "quantity" (L.dgetD "size" (.int 0))) = .ok q →
        ∃ e ∈ book.bids, e.price = p ∧ e.quantity = q)
    ∧ (∀ ls, Kalshi.sideList (pyOr ((Kalshi.obData payload).dget "yes") (.dict [])) "asks" = .ok ls →
      ∀ L ∈ ls, ∀ p q, L.isDict = true →
        pyFloat (L.dgetD "price" (L.dgetD "yes_price" (.int 0))) = .ok p →
        pyFloat (L.dgetD "quantity" (L.dgetD "size" (.int 0))) = .ok q →
        ∃ e ∈ book.asks, e.price = p ∧ e.quantity = q) := by
  unfold Kalshi.normalize_orderbook at hok
  simp only [bind, Except.bind, pure, Except.pure] at hok
  simp only [hyes, hno] at hok
  rw [if_pos (by trivial)] at hok
  cases hs : Kalshi.yesNoSides (Kalshi.obData payload) with
  | error er => simp only [hs] at hok; cases hok
  | ok sides =>
    simp only [hs] at hok
    cases ht : obTimestamp tz (Kalshi.obData payload) with
    | error er => simp only [ht] at hok; cases hok
    | ok tsv =>
      simp only [ht] at hok
      cases hok
      obtain ⟨myb, mya, mnb, mna⟩ := yesNoSides_mem _ _ hs
      refine ⟨?_, ?_, ?_, ?_⟩ <;> intro ls hside L hL p q hLd hp hq
      · have he := yesNoEntry_eval "no_price" true L hLd p q hp hq
        have hm := mnb ls hside L hL _ he
        exact ⟨_, (List.perm_insertionSort askRel _).mem_iff.mpr hm, rfl, rfl⟩
      · have he := yesNoEntry_eval "no_price" true L hLd p q hp hq
        have hm := mna ls hside L hL _ he
        exact ⟨_, (List.perm_insertionSort bidRel _).mem_iff.mpr hm, rfl, rfl⟩
      · have he := yesNoEntry_eval "yes_price" false L hLd p q hp hq
        have hm := myb ls hside L hL _ he
        exact ⟨_, (List.perm_insertionSort bidRel _).mem_iff.mpr hm, rfl, rfl⟩
      · have he := yesNoEntry_eval "yes_price" false L hLd p q hp hq
        have hm := mya ls hside L hL _ he
        exact ⟨_, (List.perm_insertionSort askRel _).mem_iff.mpr hm, rfl, rfl⟩

/-- Concrete no-side bid level used in the C2 witness. -/
def c2L : PyVal := .dict [("price", .float (mkRat 7 20)), ("quantity", .int 5)]

/-- Concrete dual-sided raw book with a single no-side bid. -/
def c2Payload : PyVal := .dict
  [("yes", .dict [("bids", .list []), ("asks", .list [])]),
   ("no", .dict [("bids", .list [c2L]), ("asks", .list [])])]

/-- Normalized form of `c2Payload` under the Kalshi client. -/
def c2Book : OrderBook :=
  { market_id := "m"
    bids := []
    asks := [⟨mkRat 13 20, mkRat 5 1, c2L⟩]
    timestamp := Option.none
    metadata := c2Payload }

/-- C2 witness: the no-side bid at price 0.35 and quantity 5 appears among
the asks at price 0.65 and quantity 5. -/
theorem kalshi_complementary_inversion_witness :
    ∃ e ∈ c2Book.asks, e.price = 1 - mkRat 7 20 ∧ e.quantity = mkRat 5 1 :=
  (kalshi_complementary_inversion 0 "m" c2Payload c2Book rfl rfl rfl).1
    [c2L] rfl c2L (List.mem_singleton.mpr rfl) (mkRat 7 20) (mkRat 5 1) rfl rfl rfl

/-- Concrete raw book with bids arriving in ascending (wrong) order. -/
def c1Payload : PyVal := .dict
  [("bids", .list [.dict [("price", .float (mkRat 3 5)), ("quantity", .int 2)],
                   .dict [("price", .float (mkRat 7 10)), ("quantity", .int 1)]]),
   ("asks", .list [.dict [("price", .float (mkRat 1 2)), ("quantity", .int 3)]])]

/-- Normalized form of `c1Payload` under the Kalshi client. -/
def c1Book : OrderBook :=
  { market_id := "m"
    bids := [⟨mkRat 7 10, mkRat 1 1, .dict [("price", .float (mkRat 7 10)), ("quantity", .int 1)]⟩,
             ⟨mkRat 3 5, mkRat 2 1, .dict [("price", .float (mkRat 3 5)), ("quantity", .int 2)]⟩]
    asks := [⟨mkRat 1 2, mkRat 3 1, .dict [("price", .float (mkRat 1 2)), ("quantity", .int 3)]⟩]
    timestamp := Option.none
    metadata := c1Payload }

/-- C1 witness: the sort invariant at a concrete out-of-order raw book. -/
theorem orderbook_sort_invariant_witness :
    Kalshi.normalize_orderbook 0 "m" c1Payload = .ok c1Book
    ∧ c1Book.bids.Chain' (fun a b => b.price ≤ a.price)
    ∧ c1Book.asks.Chain' (fun a b => a.price ≤ b.price) :=
  ⟨rfl,
   (orderbook_sort_invariant 0 "m" c1Payload c1Book (Or.inl rfl)).1,
   (orderbook_sort_invariant 0 "m" c1Payload c1Book (Or.inl rfl)).2⟩

end ExchangeSpec
